import Mathlib

/-!
# Tracer-side controller `src/ptrace.c`: a shallow embedding

The C functions of `src/ptrace.c` are translated one by one.  Kernel requests
(`ptrace`, `waitpid`) are not executed: their outcomes are inputs of the
model, and every request a function issues is appended to a log, in program
order.

Machine integers are natural numbers or integers with the wrap-around written
out: `size_t` and `unsigned long` wrap at `ULONG_MOD`, `unsigned` at
`UINT_MOD`.  A C loop is run with a bound on the number of iterations
(`fuel`); `none` means the loop has not left within that bound.
-/

namespace Ptrace

/-! ## Machine parameters -/

/-- The two Linux targets the file is compiled for: `#if defined(i386)` selects
the 32-bit x86 build (ILP32), the other build is x86-64 (LP64). -/
inductive Arch where
  | i386
  | amd64
deriving DecidableEq, Repr

/-- Value of `sizeof(long)`, the word size of the transfer loops. -/
def sizeof_long : Arch → Nat
  | .i386 => 4
  | .amd64 => 8

/-- Number of values of `size_t` and of `unsigned long` (both as wide as
`long`): `2^32` on i386, `2^64` on amd64. -/
def ULONG_MOD : Arch → Nat
  | .i386 => 4294967296
  | .amd64 => 18446744073709551616

/-- Number of values of `unsigned` (32 bits on both targets): `2^32`. -/
def UINT_MOD : Nat := 4294967296

/-- Result of running a function that contains a loop and a `memcpy`. -/
inductive Outcome (α : Type) where
  /-- The call returned. -/
  | returned (x : α)
  /-- A `memcpy` ran past the end of the scratch buffer (undefined behaviour). -/
  | undefined
  /-- The loop has not left within the allowed number of iterations. -/
  | unfinished

/-! ## Rounding -/

/-- Macro of line 24, `#define ROUNDUP(n, m) n >= 0 ? ((n + m - 1) / m) * m : (n / m) * m;`
at type `size_t`: every `+`, `-`, `*` wraps at `ULONG_MOD`.  Both uses pass a
`size_t` for `n`, so `n >= 0` holds and the second arm is never taken. -/
def ROUNDUP (a : Arch) (n m : Nat) : Nat :=
  if 0 ≤ n then
    (((n + m) % ULONG_MOD a + ULONG_MOD a - 1) % ULONG_MOD a / m) * m % ULONG_MOD a
  else
    (n / m) * m % ULONG_MOD a

/-! ## Tracee memory and the word requests -/

/-- Tracee memory: the byte stored at each address. -/
abbrev Memory := Nat → Nat

/-- Bytes `bs` stored from address `addr` on; addresses are `unsigned long`,
so the byte after the last address is address 0. -/
def store_bytes (a : Arch) (mem : Memory) (addr : Nat) : List Nat → Memory
  | [] => mem
  | b :: bs => store_bytes a (Function.update mem (addr % ULONG_MOD a) b) (addr + 1) bs

/-- The `n` bytes stored from address `addr` on. -/
def load_bytes (a : Arch) (mem : Memory) (addr n : Nat) : List Nat :=
  (List.range n).map (fun k => mem ((addr + k) % ULONG_MOD a))

/-- A `PTRACE_POKETEXT` request: the word `val`, given by the `sizeof(long)`
bytes of its object representation, for address `addr` of tracee `pid`. -/
structure Poke where
  pid : Int
  addr : Nat
  val : List Nat
deriving DecidableEq, Repr

/-- A `PTRACE_PEEKDATA` request for the word at address `addr` of tracee `pid`. -/
structure Peek where
  pid : Int
  addr : Nat
deriving DecidableEq, Repr

/-! ## Helpers of `common.c` -/

/-- Modelled from the spec: `xmalloc` is defined in `common.c`, which is not
part of `src/`.  It returns a scratch buffer of `n` bytes; the bytes are
whatever the allocator left there, given by `junk`. -/
def xmalloc (junk : Nat → Nat) (n : Nat) : List Nat :=
  (List.range n).map junk

/-- Modelled from the spec: `mem_assign` is defined in `common.c`, which is not
part of `src/`.  The spec (§4.2 step 2) says the scratch buffer is pre-filled
entirely with the trap-marker byte pattern: byte `j` of the first `buf_sz`
bytes becomes byte `j mod val_sz` of the pattern `val`. -/
def mem_assign (buf : List Nat) (buf_sz : Nat) (val : List Nat) (val_sz : Nat) : List Nat :=
  (List.range buf_sz).map (fun j => val.getD (j % val_sz) 0) ++ buf.drop buf_sz

/-! ## `ptrace_write` (lines 80-132) -/

/-- Variables of the loop of `ptrace_write`: the counter `unsigned i`, `ret`,
the tracee memory and the poke requests issued so far. -/
structure WriteLoop where
  i : Nat
  ret : Int
  mem : Memory
  pokes : List Poke

/-- One iteration of the loop of lines 97-127, `i++` included.  `poke_ok k`
tells whether the `k`-th poke request of the call succeeds; a failed poke sets
`ret = -1` and leaves the tracee memory alone, and the loop goes on. -/
def write_body (a : Arch) (poke_ok : Nat → Bool) (child_pid : Int) (base : Nat)
    (copy : List Nat) (s : WriteLoop) : WriteLoop :=
  let addr := (base + s.i * sizeof_long a % ULONG_MOD a) % ULONG_MOD a
  let val := (copy.drop (s.i * sizeof_long a)).take (sizeof_long a)
  let failed := !poke_ok s.pokes.length
  { i := (s.i + 1) % UINT_MOD
    ret := if failed then -1 else s.ret
    mem := if failed then s.mem else store_bytes a s.mem addr val
    pokes := s.pokes ++ [⟨child_pid, addr, val⟩] }

/-- Loop `for (unsigned i = 0; i < alloc_sz / sizeof(long); i++)` of line 97, run
for at most `fuel` tests of its condition. -/
def write_loop (a : Arch) (poke_ok : Nat → Bool) (child_pid : Int) (base : Nat)
    (copy : List Nat) (alloc_sz : Nat) : Nat → WriteLoop → Option WriteLoop
  | 0, _ => none
  | fuel + 1, s =>
    if s.i < alloc_sz / sizeof_long a then
      write_loop a poke_ok child_pid base copy alloc_sz fuel
        (write_body a poke_ok child_pid base copy s)
    else some s

/-- Function `ptrace_write(child_pid, base, data, data_sz)` with `data_sz` the
length of `data`.  `TRAP` holds the bytes of the trap constant and `TRAP_SZ`
its size (both defined in a header that is not part of `src/`).  Line 90 expands
to `data_sz + TRAP_SZ >= 0 ? ((data_sz + TRAP_SZ + sizeof(long) - 1) / sizeof(long))
* sizeof(long) : ...`, which is `ROUNDUP` at the `size_t` value of
`data_sz + TRAP_SZ`.  `junk` gives the bytes `xmalloc` leaves in the buffer,
`poke_ok` the outcome of each poke, `fuel` bounds the loop and `mem` is the tracee
memory before the call.  When the size wraps so that the buffer is shorter than
the payload, the `memcpy` of line 95 is undefined.  Returns `ret`, the tracee
memory after the call and the poke requests issued. -/
def ptrace_write (a : Arch) (TRAP : List Nat) (TRAP_SZ : Nat) (junk : Nat → Nat)
    (poke_ok : Nat → Bool) (fuel : Nat) (mem : Memory)
    (child_pid : Int) (base : Nat) (data : List Nat) :
    Outcome (Int × Memory × List Poke) :=
  let data_sz := data.length
  let alloc_sz := ROUNDUP a ((data_sz + TRAP_SZ) % ULONG_MOD a) (sizeof_long a)
  let copy := xmalloc junk alloc_sz
  let copy := mem_assign copy alloc_sz TRAP TRAP_SZ
  if data_sz ≤ alloc_sz then
    -- memcpy(copy, data, data_sz)
    let copy := data ++ copy.drop data_sz
    match write_loop a poke_ok child_pid base copy alloc_sz fuel
        { i := 0, ret := 0, mem := mem, pokes := [] } with
    | none => .unfinished
    | some s => .returned (s.ret, s.mem, s.pokes)
  else .undefined

/-! ## `ptrace_read` (lines 134-166) -/

/-- Variables of the loop of `ptrace_read`: the counter `unsigned i`, `ret`,
the scratch buffer `copy` and the peek requests issued so far. -/
structure ReadLoop where
  i : Nat
  ret : Int
  copy : List Nat
  peeks : List Peek

/-- One iteration of the loop of lines 147-159, `i++` included.  `peek_ok k`
tells whether the `k`-th peek request of the call succeeds; a failed peek
returns `-1` (every byte of `copy[i]` is `0xff`) with `errno` set, so `ret`
becomes `-1`, and the loop goes on. -/
def read_body (a : Arch) (peek_ok : Nat → Bool) (mem : Memory) (child_pid : Int)
    (base : Nat) (s : ReadLoop) : ReadLoop :=
  let addr := (base + s.i * sizeof_long a % ULONG_MOD a) % ULONG_MOD a
  let failed := !peek_ok s.peeks.length
  let val := if failed then List.replicate (sizeof_long a) 255
    else load_bytes a mem addr (sizeof_long a)
  { i := (s.i + 1) % UINT_MOD
    ret := if failed then -1 else s.ret
    copy := s.copy.take (s.i * sizeof_long a) ++ val
      ++ s.copy.drop (s.i * sizeof_long a + sizeof_long a)
    peeks := s.peeks ++ [⟨child_pid, addr⟩] }

/-- Loop `for (unsigned i = 0; i < alloc_sz / sizeof(long); i++)` of line 147, run
for at most `fuel` tests of its condition. -/
def read_loop (a : Arch) (peek_ok : Nat → Bool) (mem : Memory) (child_pid : Int)
    (base : Nat) (alloc_sz : Nat) : Nat → ReadLoop → Option ReadLoop
  | 0, _ => none
  | fuel + 1, s =>
    if s.i < alloc_sz / sizeof_long a then
      read_loop a peek_ok mem child_pid base alloc_sz fuel
        (read_body a peek_ok mem child_pid base s)
    else some s

/-- Function `ptrace_read(child_pid, base, out, out_sz)`.  `junk` gives the bytes
`xmalloc` leaves in the buffer, `peek_ok` the outcome of each peek, `fuel` bounds
the loop and `mem` is the tracee memory.  When the size wraps so that the buffer
is shorter than `out_sz`, the `memcpy` of line 161 is undefined.  Returns `ret`,
the `out_sz` bytes copied to `out` and the peek requests issued. -/
def ptrace_read (a : Arch) (junk : Nat → Nat) (peek_ok : Nat → Bool) (fuel : Nat)
    (mem : Memory) (child_pid : Int) (base : Nat) (out_sz : Nat) :
    Outcome (Int × List Nat × List Peek) :=
  let alloc_sz := ROUNDUP a out_sz (sizeof_long a)
  let copy := xmalloc junk alloc_sz
  match read_loop a peek_ok mem child_pid base alloc_sz fuel
      { i := 0, ret := 0, copy := copy, peeks := [] } with
  | none => .unfinished
  | some s =>
    -- memcpy(out, copy, out_sz)
    if out_sz ≤ alloc_sz then .returned (s.ret, s.copy.take out_sz, s.peeks)
    else .undefined


/-! ## Process control: data model -/

/-- A register set as the kernel hands it out: an opaque block of bytes. -/
abbrev Regs := List Nat

/-- The `struct proc_info_t` of `ptrace.h` (not part of `src/`), with the fields
`src/ptrace.c` uses.  The three `iovec` fields `regs`, `fpregs`, `fpxregs` are not
kept: each designates the `*_struct` field of the same name, which is where a
`PTRACE_GETREGSET` through it stores the register set (spec §4.1). -/
structure proc_info_t where
  pid : Int
  regs_struct : Regs
  old_regs_struct : Regs
  fpregs_struct : Regs
  old_fpregs_struct : Regs
  fpxregs_struct : Regs
  old_fpxregs_struct : Regs
  sig : Int
  exit_code : Int
deriving DecidableEq, Repr

/-- Signal number of `SIGTRAP` on Linux. -/
def SIGTRAP : Nat := 5

/-- Event number `PTRACE_EVENT_EXIT` of `<sys/ptrace.h>`. -/
def PTRACE_EVENT_EXIT : Nat := 6

/-- Option bit `PTRACE_O_TRACEEXIT`, `1 << PTRACE_EVENT_EXIT`. -/
def PTRACE_O_TRACEEXIT : Nat := 1 <<< PTRACE_EVENT_EXIT

/-- Option bit `PTRACE_O_EXITKILL`, `1 << 20`. -/
def PTRACE_O_EXITKILL : Nat := 1 <<< 20

/-- Note type `NT_PRSTATUS` of `<elf.h>`. -/
def NT_PRSTATUS : Nat := 1

/-- Note type `NT_FPREGSET` of `<elf.h>`. -/
def NT_FPREGSET : Nat := 2

/-- Note type `NT_PRXFPREG` of `<elf.h>`. -/
def NT_PRXFPREG : Nat := 0x46e62b7f

/-! ## The wait-status macros of `<sys/wait.h>` (glibc)

`status` is an `int`; on two's complement `s & 0x7f` is `s mod 128`, `s & 0xff` is
`s mod 256` and `s >> 8` is the floor of `s / 256` (`%` and `/` on `Int` are these). -/

/-- Macro `WTERMSIG(s)`, `s & 0x7f`. -/
def WTERMSIG (s : Int) : Int := s % 128

/-- Macro `WEXITSTATUS(s)`, `(s & 0xff00) >> 8`. -/
def WEXITSTATUS (s : Int) : Int := s / 256 % 256

/-- Macro `WSTOPSIG(s)`, the same bits as `WEXITSTATUS(s)`. -/
def WSTOPSIG (s : Int) : Int := WEXITSTATUS s

/-- Macro `WIFEXITED(s)`, `WTERMSIG(s) == 0`. -/
def WIFEXITED (s : Int) : Bool := WTERMSIG s == 0

/-- Conversion of an `int` to `signed char`. -/
def signed_char (x : Int) : Int := if x % 256 < 128 then x % 256 else x % 256 - 256

/-- Macro `WIFSIGNALED(s)`, `((signed char) ((s & 0x7f) + 1) >> 1) > 0`. -/
def WIFSIGNALED (s : Int) : Bool := decide (signed_char (s % 128 + 1) / 2 > 0)

/-- Macro `WIFSTOPPED(s)`, `(s & 0xff) == 0x7f`. -/
def WIFSTOPPED (s : Int) : Bool := s % 256 == 127

/-! ## Kernel requests -/

/-- A request the controller makes of the kernel; `waitpid` carries the status
the call stored. -/
inductive Request where
  | waitpid (pid : Int) (status : Int)
  | getregset (pid : Int) (note : Nat)
  | getsiginfo (pid : Int)
  | geteventmsg (pid : Int)
  | cont (pid : Int) (sig : Int)
  | detach (pid : Int)
  | setoptions (pid : Int) (mask : Nat)
deriving DecidableEq, Repr

/-- What the kernel answers to the requests of one call: `none` or `false` is a
failed request. -/
structure Kernel where
  /-- `waitpid(child_pid, &status, 0)`: the status stored. -/
  waitpid : Option Int
  /-- `PTRACE_GETREGSET` with `NT_PRSTATUS`: the general-purpose registers. -/
  getregset_prstatus : Option Regs
  /-- `PTRACE_GETREGSET` with `NT_FPREGSET`: the floating-point registers. -/
  getregset_fpregset : Option Regs
  /-- `PTRACE_GETREGSET` with `NT_PRXFPREG`: the extended registers (i386). -/
  getregset_prxfpreg : Option Regs
  /-- `PTRACE_GETSIGINFO`: the field `si_signo`. -/
  getsiginfo : Option Int
  /-- `PTRACE_GETEVENTMSG`: the event message. -/
  geteventmsg : Option Int
  /-- `PTRACE_CONT` succeeds. -/
  cont : Bool
  /-- `PTRACE_DETACH` succeeds. -/
  detach : Bool
  /-- `PTRACE_SETOPTIONS` with the given mask succeeds. -/
  setoptions : Nat → Bool

/-- Modelled from the spec: the macro `REQUIRE` is defined in `common.h`, which
is not part of `src/`.  The spec (§7) says a failed required kernel call
terminates the controlling process: the call in progress yields nothing. -/
def REQUIRE (ok : Bool) : Option Unit := if ok then some () else none

/-! ## Register snapshots (lines 26-64) -/

/-- Function `_collect_regs(child_pid, info)`: the updated `info` and the
requests issued. -/
def _collect_regs (a : Arch) (k : Kernel) (child_pid : Int) (info : proc_info_t) :
    Option (proc_info_t × List Request) := do
  let info := { info with pid := child_pid }
  let info := { info with old_regs_struct := info.regs_struct }
  let regs ← k.getregset_prstatus
  let info := { info with regs_struct := regs }
  let info := { info with old_fpregs_struct := info.fpregs_struct }
  let fpregs ← k.getregset_fpregset
  let info := { info with fpregs_struct := fpregs }
  let log := [Request.getregset child_pid NT_PRSTATUS, Request.getregset child_pid NT_FPREGSET]
  match a with
  | .i386 =>
    let info := { info with old_fpxregs_struct := info.fpxregs_struct }
    let fpxregs ← k.getregset_prxfpreg
    let info := { info with fpxregs_struct := fpxregs }
    some ({ info with sig := -1, exit_code := -1 },
      log ++ [Request.getregset child_pid NT_PRXFPREG])
  | .amd64 =>
    some ({ info with sig := -1, exit_code := -1 }, log)

/-- The requests of one register snapshot. -/
def collect_log (a : Arch) (pid : Int) : List Request :=
  match a with
  | .i386 => [Request.getregset pid NT_PRSTATUS, Request.getregset pid NT_FPREGSET,
      Request.getregset pid NT_PRXFPREG]
  | .amd64 => [Request.getregset pid NT_PRSTATUS, Request.getregset pid NT_FPREGSET]

/-- Function `_exited_collect_regs(child_pid, info)`. -/
def _exited_collect_regs (a : Arch) (k : Kernel) (child_pid : Int) (info : proc_info_t) :
    Option (proc_info_t × List Request) := do
  let (info, log) ← _collect_regs a k child_pid info
  let si_signo ← k.getsiginfo
  let info := { info with sig := si_signo }
  let msg ← k.geteventmsg
  let info := { info with exit_code := msg }
  some (info, log ++ [Request.getsiginfo child_pid, Request.geteventmsg child_pid])

/-! ## The execution controller (lines 182-258) -/

/-- Request `PTRACE_SETOPTIONS` as the kernel performs it: the option set of the
tracee is set from the mask of the request, whatever it held before. -/
def ptrace_setoptions (k : Kernel) (_opts mask : Nat) : Option Nat :=
  if k.setoptions mask then some mask else none

/-- Function `ptrace_launch(child_pid)`.  `opts` is the option set of the tracee
before the call.  Returns the option set after the call and the requests issued. -/
def ptrace_launch (k : Kernel) (child_pid : Int) (opts : Nat) :
    Option (Nat × List Request) := do
  let status ← k.waitpid
  let opts ← ptrace_setoptions k opts PTRACE_O_EXITKILL
  let opts ← ptrace_setoptions k opts PTRACE_O_TRACEEXIT
  some (opts, [Request.waitpid child_pid status,
    Request.setoptions child_pid PTRACE_O_EXITKILL,
    Request.setoptions child_pid PTRACE_O_TRACEEXIT])

/-- Whether the option set `opts` contains every bit of `flag`. -/
def has_option (opts flag : Nat) : Bool := opts &&& flag == flag

/-- Function `ptrace_cont(child_pid, info)`. -/
def ptrace_cont (a : Arch) (k : Kernel) (child_pid : Int) (info : proc_info_t) :
    Option (proc_info_t × List Request) := do
  let (info, log) ← _collect_regs a k child_pid info
  REQUIRE k.cont
  some (info, log ++ [Request.cont child_pid 0])

/-- Function `ptrace_reap(child_pid, info)`; `passsig` is the global
`options.passsig`.  Returns the return value, the updated `info` and the requests
issued.  The `printf` calls are left out. -/
def ptrace_reap (a : Arch) (passsig : Bool) (k : Kernel) (child_pid : Int)
    (info : proc_info_t) : Option (Int × proc_info_t × List Request) :=
  match k.waitpid with
  | none => none
  | some status =>
    if WIFEXITED status then
      some (1, info, [Request.waitpid child_pid status])
    else if WIFSIGNALED status then
      some (1, info, [Request.waitpid child_pid status])
    else if status / (256 : Int) = Int.ofNat (SIGTRAP ||| (PTRACE_EVENT_EXIT <<< 8)) then
      match _exited_collect_regs a k child_pid info with
      | none => none
      | some (info, log) => some (1, info, Request.waitpid child_pid status :: log)
    else
      match _collect_regs a k child_pid info with
      | none => none
      | some (info, log) =>
        if status / (256 : Int) = Int.ofNat SIGTRAP then
          some (0, info, Request.waitpid child_pid status :: log)
        else if passsig then
          match REQUIRE k.cont with
          | none => none
          | some _ =>
            some (0, info, Request.waitpid child_pid status :: log
              ++ [Request.cont child_pid (WSTOPSIG status)])
        else
          some (0, info, Request.waitpid child_pid status :: log)

/-- Function `ptrace_detatch(child_pid, info)`. -/
def ptrace_detatch (k : Kernel) (child_pid : Int) (info : proc_info_t) :
    Option (proc_info_t × List Request) := do
  REQUIRE k.detach
  let status ← k.waitpid
  let info := if WIFEXITED status then { info with exit_code := WEXITSTATUS status } else info
  let info := if WIFSIGNALED status then { info with sig := WTERMSIG status } else info
  some (info, [Request.detach child_pid, Request.waitpid child_pid status])

/-! ## Tracee states and sessions (spec §2 and §4.3) -/

/-- Modelled from the spec: the run states of §4.3 that a request can lead to. -/
inductive RunState where
  | Stopped
  | Running
  | Exited
deriving DecidableEq, Repr

/-- Modelled from the spec: state of the tracee after a request (§4.3).  A wait
returns when the tracee has stopped or is gone; a continue or detach request sets
it running. -/
def tracee_after (s : RunState) : Request → RunState
  | .waitpid _ status => if WIFEXITED status || WIFSIGNALED status then .Exited else .Stopped
  | .cont _ _ => .Running
  | .detach _ => .Running
  | _ => s

/-- State of the tracee after a list of requests. -/
def tracee_after_all (s : RunState) (log : List Request) : RunState :=
  log.foldl tracee_after s

/-- Whether every register, signal-information, event-message and continue
request of the log is issued while the tracee is stopped. -/
def acts_on_stopped : RunState → List Request → Bool
  | _, [] => true
  | s, .waitpid p st :: rest => acts_on_stopped (tracee_after s (.waitpid p st)) rest
  | s, .setoptions _ _ :: rest => acts_on_stopped s rest
  | s, r :: rest => s == .Stopped && acts_on_stopped (tracee_after s r) rest

/-- Numbers of continue requests in the stretches of the log between two
consecutive waits; `n` counts the current stretch once a first wait was seen. -/
def conts_between_waits : Option Nat → List Request → List Nat
  | _, [] => []
  | none, .waitpid _ _ :: rest => conts_between_waits (some 0) rest
  | none, _ :: rest => conts_between_waits none rest
  | some n, .waitpid _ _ :: rest => n :: conts_between_waits (some 0) rest
  | some n, .cont _ _ :: rest => conts_between_waits (some (n + 1)) rest
  | some n, _ :: rest => conts_between_waits (some n) rest

/-- Modelled from the spec: the caller of `ptrace_cont` and `ptrace_reap` is not
part of `src/`.  The spec (§2) says the parent loop alternates the two calls
until a terminal stop: one pair of calls per entry of `ks` (the kernel answers to
the two calls), until `ptrace_reap` returns non-zero.  Returns the final `info`
and all requests issued. -/
def session (a : Arch) (passsig : Bool) (child_pid : Int) :
    List (Kernel × Kernel) → proc_info_t → Option (proc_info_t × List Request)
  | [], info => some (info, [])
  | (kc, kr) :: ks, info =>
    match ptrace_cont a kc child_pid info with
    | none => none
    | some (info, log1) =>
      match ptrace_reap a passsig kr child_pid info with
      | none => none
      | some (ret, info, log2) =>
        if ret ≠ 0 then some (info, log1 ++ log2)
        else
          match session a passsig child_pid ks info with
          | none => none
          | some (info, log3) => some (info, log1 ++ log2 ++ log3)

/-- A kernel that answers every request with success: the wait stores `status`,
the register requests hand out `regs`, `fpregs` and `fpxregs`, the signal
information names `signo` and the event message is `msg`. -/
def kernel_ok (status : Int) (regs fpregs fpxregs : Regs) (signo msg : Int) : Kernel :=
  { waitpid := some status
    getregset_prstatus := some regs
    getregset_fpregset := some fpregs
    getregset_prxfpreg := some fpxregs
    getsiginfo := some signo
    geteventmsg := some msg
    cont := true
    detach := true
    setoptions := fun _ => true }

/-- Whether the kernel answers every request other than `PTRACE_SETOPTIONS` and
`PTRACE_DETACH` with success. -/
def answers_all (k : Kernel) : Bool :=
  k.waitpid.isSome && k.getregset_prstatus.isSome && k.getregset_fpregset.isSome
    && k.getregset_prxfpreg.isSome && k.getsiginfo.isSome && k.geteventmsg.isSome && k.cont

/-- A `proc_info_t` as `ptrace_peek` initialises it: empty register blocks, `sig`
and `exit_code` at -1. -/
def fresh_info (pid : Int) : proc_info_t :=
  { pid := pid, regs_struct := [], old_regs_struct := [], fpregs_struct := [],
    old_fpregs_struct := [], fpxregs_struct := [], old_fpxregs_struct := [],
    sig := -1, exit_code := -1 }

/-- Whether a request neither waits for the tracee nor sets it running. -/
def is_quiet : Request → Bool
  | .getregset _ _ => true
  | .getsiginfo _ => true
  | .geteventmsg _ => true
  | .setoptions _ _ => true
  | _ => false

/-! ## Facts about the machine parameters -/

theorem ULONG_MOD_pos (a : Arch) : 0 < ULONG_MOD a := by
  cases a <;> simp [ULONG_MOD]

theorem sizeof_long_pos (a : Arch) : 0 < sizeof_long a := by
  cases a <;> simp [sizeof_long]

theorem sizeof_long_dvd (a : Arch) : sizeof_long a ∣ ULONG_MOD a := by
  cases a <;> simp only [sizeof_long, ULONG_MOD] <;> omega

/-- Without wrap-around `ROUNDUP` is the usual rounding up. -/
theorem ROUNDUP_eq (a : Arch) (n : Nat) (h : n + sizeof_long a ≤ ULONG_MOD a) :
    ROUNDUP a n (sizeof_long a) = (n + sizeof_long a - 1) / sizeof_long a * sizeof_long a := by
  cases a <;>
    simp only [ROUNDUP, sizeof_long, ULONG_MOD, Nat.zero_le, if_true] at h ⊢ <;> omega

/-! ## Storing and loading bytes -/

theorem store_bytes_append (a : Arch) (mem : Memory) (addr : Nat) (xs ys : List Nat) :
    store_bytes a mem addr (xs ++ ys)
      = store_bytes a (store_bytes a mem addr xs) (addr + xs.length) ys := by
  induction xs generalizing mem addr with
  | nil => simp [store_bytes]
  | cons x xs ih =>
    rw [List.cons_append]
    simp only [store_bytes, List.length_cons]
    rw [ih, Nat.add_assoc, Nat.add_comm 1]

theorem store_bytes_congr (a : Arch) (mem : Memory) (addr addr2 : Nat) (bs : List Nat)
    (h : addr % ULONG_MOD a = addr2 % ULONG_MOD a) :
    store_bytes a mem addr bs = store_bytes a mem addr2 bs := by
  induction bs generalizing mem addr addr2 with
  | nil => rfl
  | cons b bs ih =>
    simp only [store_bytes, h]
    apply ih
    rw [Nat.add_mod, h, ← Nat.add_mod]

theorem store_bytes_other (a : Arch) (mem : Memory) (addr x : Nat) (bs : List Nat)
    (h : ∀ k, k < bs.length → (addr + k) % ULONG_MOD a ≠ x) :
    store_bytes a mem addr bs x = mem x := by
  induction bs generalizing mem addr with
  | nil => rfl
  | cons b bs ih =>
    simp only [store_bytes]
    rw [ih]
    · have h0 := h 0 (by simp)
      simp only [Nat.add_zero] at h0
      exact Function.update_noteq (Ne.symm h0) _ _
    · intro k hk
      have := h (k + 1) (by simp; omega)
      rwa [Nat.add_assoc, Nat.add_comm 1 k]

theorem store_bytes_at (a : Arch) (mem : Memory) (addr k : Nat) (bs : List Nat)
    (hlen : bs.length ≤ ULONG_MOD a) (hk : k < bs.length) :
    store_bytes a mem addr bs ((addr + k) % ULONG_MOD a) = bs.getD k 0 := by
  induction bs generalizing mem addr k with
  | nil => simp at hk
  | cons b bs ih =>
    simp only [List.length_cons] at hlen hk
    simp only [store_bytes]
    cases k with
    | zero =>
      rw [store_bytes_other]
      · simp
      · intro j hj
        have hM := ULONG_MOD_pos a
        intro hcon
        have h1 : (addr + 1 + j) % ULONG_MOD a = (addr + 0) % ULONG_MOD a := hcon
        have h2 : (1 + j) % ULONG_MOD a = 0 % ULONG_MOD a := by
          have : addr + 1 + j = addr + (1 + j) := by omega
          rw [this] at h1
          exact Nat.ModEq.add_left_cancel' addr h1
        rw [Nat.zero_mod, Nat.mod_eq_of_lt (by omega)] at h2
        omega
    | succ k =>
      have := ih (Function.update mem (addr % ULONG_MOD a) b) (addr + 1) k (by omega) (by omega)
      have e : addr + 1 + k = addr + (k + 1) := by omega
      rw [e] at this
      rw [this]
      simp

theorem load_bytes_length (a : Arch) (mem : Memory) (addr n : Nat) :
    (load_bytes a mem addr n).length = n := by
  simp [load_bytes]

theorem load_bytes_congr (a : Arch) (mem : Memory) (addr addr2 n : Nat)
    (h : addr % ULONG_MOD a = addr2 % ULONG_MOD a) :
    load_bytes a mem addr n = load_bytes a mem addr2 n := by
  unfold load_bytes
  apply List.map_congr_left
  intro k _
  rw [Nat.add_mod, h, ← Nat.add_mod]

theorem load_bytes_add (a : Arch) (mem : Memory) (addr n k : Nat) :
    load_bytes a mem addr (n + k) = load_bytes a mem addr n ++ load_bytes a mem (addr + n) k := by
  simp [load_bytes, List.range_add, List.map_append, Nat.add_assoc]

theorem load_bytes_take (a : Arch) (mem : Memory) (addr n k : Nat) (h : k ≤ n) :
    (load_bytes a mem addr n).take k = load_bytes a mem addr k := by
  simp [load_bytes, ← List.map_take, List.take_range, Nat.min_eq_left h]

/-- Reading back what was stored. -/
theorem load_store_bytes (a : Arch) (mem : Memory) (addr n : Nat) (bs : List Nat)
    (hlen : bs.length ≤ ULONG_MOD a) (hn : n ≤ bs.length) :
    load_bytes a (store_bytes a mem addr bs) addr n = bs.take n := by
  apply List.ext_getElem
  · simp [load_bytes, Nat.min_eq_left hn]
  · intro k h1 h2
    simp only [load_bytes, List.length_map, List.length_range] at h1
    simp only [load_bytes, List.getElem_map, List.getElem_range, List.getElem_take]
    rw [store_bytes_at a mem addr k bs hlen (by omega)]
    exact List.getD_eq_getElem _ _ (by omega)

/-! ## The loop of `ptrace_write` -/

theorem write_body_i (a : Arch) (poke_ok : Nat → Bool) (pid : Int) (base : Nat)
    (copy : List Nat) (s : WriteLoop) :
    (write_body a poke_ok pid base copy s).i = (s.i + 1) % UINT_MOD := rfl

theorem write_body_pokes_length (a : Arch) (poke_ok : Nat → Bool) (pid : Int) (base : Nat)
    (copy : List Nat) (s : WriteLoop) :
    (write_body a poke_ok pid base copy s).pokes.length = s.pokes.length + 1 := by
  simp [write_body]

/-- A word count of `2^32` or more is never reached by the `unsigned` counter:
the loop does not leave, whatever the bound on the iterations. -/
theorem write_loop_unfinished (a : Arch) (poke_ok : Nat → Bool) (pid : Int) (base : Nat)
    (copy : List Nat) (alloc_sz : Nat) (h : UINT_MOD ≤ alloc_sz / sizeof_long a)
    (fuel : Nat) (s : WriteLoop) (hs : s.i < UINT_MOD) :
    write_loop a poke_ok pid base copy alloc_sz fuel s = none := by
  induction fuel generalizing s with
  | zero => rfl
  | succ fuel ih =>
    have hlt : s.i < alloc_sz / sizeof_long a := by omega
    simp only [write_loop, hlt, if_true]
    apply ih
    rw [write_body_i]
    exact Nat.mod_lt _ (by simp [UINT_MOD])

/-- Below `2^32` words the loop leaves after running its body once per word. -/
theorem write_loop_returns (a : Arch) (poke_ok : Nat → Bool) (pid : Int) (base : Nat)
    (copy : List Nat) (alloc_sz : Nat) (hcnt : alloc_sz / sizeof_long a < UINT_MOD)
    (n : Nat) (s : WriteLoop) (fuel : Nat)
    (hs : s.i + n = alloc_sz / sizeof_long a) (hf : n < fuel) :
    write_loop a poke_ok pid base copy alloc_sz fuel s
      = some ((write_body a poke_ok pid base copy)^[n] s) := by
  induction n generalizing s fuel with
  | zero =>
    cases fuel with
    | zero => omega
    | succ fuel =>
      have hlt : ¬ s.i < alloc_sz / sizeof_long a := by omega
      simp [write_loop, hlt]
  | succ n ih =>
    cases fuel with
    | zero => omega
    | succ fuel =>
      have hlt : s.i < alloc_sz / sizeof_long a := by omega
      simp only [write_loop, hlt, if_true, Function.iterate_succ_apply]
      apply ih
      · rw [write_body_i, Nat.mod_eq_of_lt (by omega)]
        omega
      · omega

theorem write_iter_pokes_length (a : Arch) (poke_ok : Nat → Bool) (pid : Int) (base : Nat)
    (copy : List Nat) (n : Nat) (s : WriteLoop) :
    ((write_body a poke_ok pid base copy)^[n] s).pokes.length = s.pokes.length + n := by
  induction n generalizing s with
  | zero => rfl
  | succ n ih =>
    rw [Function.iterate_succ_apply, ih, write_body_pokes_length]
    omega

theorem write_iter_pokes (a : Arch) (poke_ok : Nat → Bool) (pid : Int) (base : Nat)
    (copy : List Nat) (n : Nat) (s : WriteLoop) (hs : s.i + n < UINT_MOD) :
    ((write_body a poke_ok pid base copy)^[n] s).pokes
      = s.pokes ++ (List.range' s.i n).map (fun j =>
          (⟨pid, (base + j * sizeof_long a % ULONG_MOD a) % ULONG_MOD a,
            (copy.drop (j * sizeof_long a)).take (sizeof_long a)⟩ : Poke)) := by
  induction n generalizing s with
  | zero => simp
  | succ n ih =>
    rw [Function.iterate_succ_apply, ih]
    · rw [write_body_i, Nat.mod_eq_of_lt (by omega)]
      simp [write_body, List.range'_succ]
    · rw [write_body_i, Nat.mod_eq_of_lt (by omega)]
      omega

theorem write_iter_ret_ok (a : Arch) (poke_ok : Nat → Bool) (pid : Int) (base : Nat)
    (copy : List Nat) (n : Nat) (s : WriteLoop)
    (h : ∀ k, k < n → poke_ok (s.pokes.length + k) = true) :
    ((write_body a poke_ok pid base copy)^[n] s).ret = s.ret := by
  induction n generalizing s with
  | zero => rfl
  | succ n ih =>
    rw [Function.iterate_succ_apply, ih]
    · have h0 := h 0 (by omega)
      simp only [Nat.add_zero] at h0
      simp [write_body, h0]
    · intro k hk
      rw [write_body_pokes_length]
      have := h (k + 1) (by omega)
      rwa [Nat.add_assoc, Nat.add_comm 1 k]

theorem write_iter_ret_cases (a : Arch) (poke_ok : Nat → Bool) (pid : Int) (base : Nat)
    (copy : List Nat) (n : Nat) (s : WriteLoop) :
    ((write_body a poke_ok pid base copy)^[n] s).ret = s.ret
      ∨ ((write_body a poke_ok pid base copy)^[n] s).ret = -1 := by
  induction n generalizing s with
  | zero => exact Or.inl rfl
  | succ n ih =>
    rw [Function.iterate_succ_apply]
    rcases ih (write_body a poke_ok pid base copy s) with h | h
    · rw [h]
      simp only [write_body]
      split <;> simp
    · exact Or.inr h

theorem write_iter_ret_failed (a : Arch) (poke_ok : Nat → Bool) (pid : Int) (base : Nat)
    (copy : List Nat) (n : Nat) (s : WriteLoop) (k : Nat) (hk : k < n)
    (h : poke_ok (s.pokes.length + k) = false) :
    ((write_body a poke_ok pid base copy)^[n] s).ret = -1 := by
  induction n generalizing s k with
  | zero => omega
  | succ n ih =>
    rw [Function.iterate_succ_apply]
    cases k with
    | zero =>
      simp only [Nat.add_zero] at h
      rcases write_iter_ret_cases a poke_ok pid base copy n
        (write_body a poke_ok pid base copy s) with h1 | h1
      · rw [h1]
        simp [write_body, h]
      · exact h1
    | succ k =>
      apply ih _ k (by omega)
      rw [write_body_pokes_length]
      rwa [Nat.add_assoc, Nat.add_comm 1 k]

theorem write_iter_mem (a : Arch) (poke_ok : Nat → Bool) (pid : Int) (base : Nat)
    (copy : List Nat) (n : Nat) (s : WriteLoop)
    (h : ∀ k, k < n → poke_ok (s.pokes.length + k) = true)
    (hs : s.i + n < UINT_MOD) (hlen : (s.i + n) * sizeof_long a ≤ copy.length) :
    ((write_body a poke_ok pid base copy)^[n] s).mem
      = store_bytes a s.mem (base + s.i * sizeof_long a)
          ((copy.drop (s.i * sizeof_long a)).take (n * sizeof_long a)) := by
  induction n generalizing s with
  | zero => simp [store_bytes]
  | succ n ih =>
    have hi : (write_body a poke_ok pid base copy s).i = s.i + 1 := by
      rw [write_body_i, Nat.mod_eq_of_lt (by omega)]
    have hm := sizeof_long_pos a
    rw [Function.iterate_succ_apply, ih]
    · rw [hi]
      have h0 := h 0 (by omega)
      simp only [Nat.add_zero] at h0
      have hmem : (write_body a poke_ok pid base copy s).mem
          = store_bytes a s.mem (base + s.i * sizeof_long a)
              ((copy.drop (s.i * sizeof_long a)).take (sizeof_long a)) := by
        simp only [write_body, h0, Bool.not_true, Bool.false_eq_true, if_false]
        apply store_bytes_congr
        simp [Nat.add_mod]
      rw [hmem]
      have e1 : (n + 1) * sizeof_long a = sizeof_long a + n * sizeof_long a := by
        rw [Nat.add_mul]; omega
      have e2 : (s.i + 1) * sizeof_long a = s.i * sizeof_long a + sizeof_long a := by
        rw [Nat.add_mul]; omega
      have e3 : (s.i + (n + 1)) * sizeof_long a
          = s.i * sizeof_long a + sizeof_long a + n * sizeof_long a := by
        rw [Nat.add_mul, Nat.add_mul]; omega
      rw [e1, List.take_add, store_bytes_append, e2]
      have hl : ((copy.drop (s.i * sizeof_long a)).take (sizeof_long a)).length
          = sizeof_long a := by
        rw [List.length_take, List.length_drop]
        omega
      rw [hl, List.drop_drop, Nat.add_assoc]
    · intro k hk
      rw [write_body_pokes_length]
      have := h (k + 1) (by omega)
      rwa [Nat.add_assoc, Nat.add_comm 1 k]
    · omega
    · rw [hi]
      have : s.i + 1 + n = s.i + (n + 1) := by omega
      rw [this]
      exact hlen

/-! ## The loop of `ptrace_read` -/

theorem read_body_i (a : Arch) (peek_ok : Nat → Bool) (mem : Memory) (pid : Int)
    (base : Nat) (s : ReadLoop) :
    (read_body a peek_ok mem pid base s).i = (s.i + 1) % UINT_MOD := rfl

theorem read_body_peeks_length (a : Arch) (peek_ok : Nat → Bool) (mem : Memory) (pid : Int)
    (base : Nat) (s : ReadLoop) :
    (read_body a peek_ok mem pid base s).peeks.length = s.peeks.length + 1 := by
  simp [read_body]

theorem read_body_copy_length (a : Arch) (peek_ok : Nat → Bool) (mem : Memory) (pid : Int)
    (base : Nat) (s : ReadLoop) (h : s.i * sizeof_long a + sizeof_long a ≤ s.copy.length) :
    (read_body a peek_ok mem pid base s).copy.length = s.copy.length := by
  simp only [read_body]
  split <;> simp [load_bytes_length] <;> omega

/-- A word count of `2^32` or more is never reached by the `unsigned` counter:
the loop does not leave, whatever the bound on the iterations. -/
theorem read_loop_unfinished (a : Arch) (peek_ok : Nat → Bool) (mem : Memory) (pid : Int)
    (base : Nat) (alloc_sz : Nat) (h : UINT_MOD ≤ alloc_sz / sizeof_long a)
    (fuel : Nat) (s : ReadLoop) (hs : s.i < UINT_MOD) :
    read_loop a peek_ok mem pid base alloc_sz fuel s = none := by
  induction fuel generalizing s with
  | zero => rfl
  | succ fuel ih =>
    have hlt : s.i < alloc_sz / sizeof_long a := by omega
    simp only [read_loop, hlt, if_true]
    apply ih
    rw [read_body_i]
    exact Nat.mod_lt _ (by simp [UINT_MOD])

/-- Below `2^32` words the loop leaves after running its body once per word. -/
theorem read_loop_returns (a : Arch) (peek_ok : Nat → Bool) (mem : Memory) (pid : Int)
    (base : Nat) (alloc_sz : Nat) (hcnt : alloc_sz / sizeof_long a < UINT_MOD)
    (n : Nat) (s : ReadLoop) (fuel : Nat)
    (hs : s.i + n = alloc_sz / sizeof_long a) (hf : n < fuel) :
    read_loop a peek_ok mem pid base alloc_sz fuel s
      = some ((read_body a peek_ok mem pid base)^[n] s) := by
  induction n generalizing s fuel with
  | zero =>
    cases fuel with
    | zero => omega
    | succ fuel =>
      have hlt : ¬ s.i < alloc_sz / sizeof_long a := by omega
      simp [read_loop, hlt]
  | succ n ih =>
    cases fuel with
    | zero => omega
    | succ fuel =>
      have hlt : s.i < alloc_sz / sizeof_long a := by omega
      simp only [read_loop, hlt, if_true, Function.iterate_succ_apply]
      apply ih
      · rw [read_body_i, Nat.mod_eq_of_lt (by omega)]
        omega
      · omega

theorem read_iter_peeks (a : Arch) (peek_ok : Nat → Bool) (mem : Memory) (pid : Int)
    (base : Nat) (n : Nat) (s : ReadLoop) (hs : s.i + n < UINT_MOD) :
    ((read_body a peek_ok mem pid base)^[n] s).peeks
      = s.peeks ++ (List.range' s.i n).map (fun j =>
          (⟨pid, (base + j * sizeof_long a % ULONG_MOD a) % ULONG_MOD a⟩ : Peek)) := by
  induction n generalizing s with
  | zero => simp
  | succ n ih =>
    rw [Function.iterate_succ_apply, ih]
    · rw [read_body_i, Nat.mod_eq_of_lt (by omega)]
      simp [read_body, List.range'_succ]
    · rw [read_body_i, Nat.mod_eq_of_lt (by omega)]
      omega

theorem read_iter_ret_ok (a : Arch) (peek_ok : Nat → Bool) (mem : Memory) (pid : Int)
    (base : Nat) (n : Nat) (s : ReadLoop)
    (h : ∀ k, k < n → peek_ok (s.peeks.length + k) = true) :
    ((read_body a peek_ok mem pid base)^[n] s).ret = s.ret := by
  induction n generalizing s with
  | zero => rfl
  | succ n ih =>
    rw [Function.iterate_succ_apply, ih]
    · have h0 := h 0 (by omega)
      simp only [Nat.add_zero] at h0
      simp [read_body, h0]
    · intro k hk
      rw [read_body_peeks_length]
      have := h (k + 1) (by omega)
      rwa [Nat.add_assoc, Nat.add_comm 1 k]

theorem read_iter_ret_cases (a : Arch) (peek_ok : Nat → Bool) (mem : Memory) (pid : Int)
    (base : Nat) (n : Nat) (s : ReadLoop) :
    ((read_body a peek_ok mem pid base)^[n] s).ret = s.ret
      ∨ ((read_body a peek_ok mem pid base)^[n] s).ret = -1 := by
  induction n generalizing s with
  | zero => exact Or.inl rfl
  | succ n ih =>
    rw [Function.iterate_succ_apply]
    rcases ih (read_body a peek_ok mem pid base s) with h | h
    · rw [h]
      simp only [read_body]
      split <;> simp
    · exact Or.inr h

theorem read_iter_ret_failed (a : Arch) (peek_ok : Nat → Bool) (mem : Memory) (pid : Int)
    (base : Nat) (n : Nat) (s : ReadLoop) (k : Nat) (hk : k < n)
    (h : peek_ok (s.peeks.length + k) = false) :
    ((read_body a peek_ok mem pid base)^[n] s).ret = -1 := by
  induction n generalizing s k with
  | zero => omega
  | succ n ih =>
    rw [Function.iterate_succ_apply]
    cases k with
    | zero =>
      simp only [Nat.add_zero] at h
      rcases read_iter_ret_cases a peek_ok mem pid base n
        (read_body a peek_ok mem pid base s) with h1 | h1
      · rw [h1]
        simp [read_body, h]
      · exact h1
    | succ k =>
      apply ih _ k (by omega)
      rw [read_body_peeks_length]
      rwa [Nat.add_assoc, Nat.add_comm 1 k]

theorem read_iter_copy (a : Arch) (peek_ok : Nat → Bool) (mem : Memory) (pid : Int)
    (base : Nat) (n : Nat) (s : ReadLoop)
    (h : ∀ k, k < n → peek_ok (s.peeks.length + k) = true)
    (hs : s.i + n < UINT_MOD) (hlen : (s.i + n) * sizeof_long a ≤ s.copy.length) :
    ((read_body a peek_ok mem pid base)^[n] s).copy
      = s.copy.take (s.i * sizeof_long a)
        ++ load_bytes a mem (base + s.i * sizeof_long a) (n * sizeof_long a)
        ++ s.copy.drop ((s.i + n) * sizeof_long a) := by
  induction n generalizing s with
  | zero => simp [load_bytes]
  | succ n ih =>
    have hi : (read_body a peek_ok mem pid base s).i = s.i + 1 := by
      rw [read_body_i, Nat.mod_eq_of_lt (by omega)]
    have e1 : (n + 1) * sizeof_long a = sizeof_long a + n * sizeof_long a := by
      rw [Nat.add_mul]; omega
    have e2 : (s.i + 1) * sizeof_long a = s.i * sizeof_long a + sizeof_long a := by
      rw [Nat.add_mul]; omega
    have e3 : (s.i + (n + 1)) * sizeof_long a
        = s.i * sizeof_long a + sizeof_long a + n * sizeof_long a := by
      rw [Nat.add_mul, Nat.add_mul]; omega
    have e4 : (s.i + 1 + n) * sizeof_long a
        = s.i * sizeof_long a + sizeof_long a + n * sizeof_long a := by
      rw [Nat.add_mul, Nat.add_mul]; omega
    have h0 := h 0 (by omega)
    simp only [Nat.add_zero] at h0
    have hcopy : (read_body a peek_ok mem pid base s).copy
        = s.copy.take (s.i * sizeof_long a)
          ++ load_bytes a mem (base + s.i * sizeof_long a) (sizeof_long a)
          ++ s.copy.drop (s.i * sizeof_long a + sizeof_long a) := by
      simp only [read_body, h0, Bool.not_true, Bool.false_eq_true, if_false]
      congr 2
      apply load_bytes_congr
      simp [Nat.add_mod]
    rw [Function.iterate_succ_apply, ih]
    · rw [hi, hcopy, e1, e2, e3, e4, load_bytes_add]
      have hl : (s.copy.take (s.i * sizeof_long a)
          ++ load_bytes a mem (base + s.i * sizeof_long a) (sizeof_long a)).length
          = s.i * sizeof_long a + sizeof_long a := by
        rw [List.length_append, List.length_take, load_bytes_length]
        omega
      rw [List.take_append_of_le_length (by omega), List.take_of_length_le (by omega)]
      rw [List.drop_append_eq_append_drop, hl]
      rw [List.drop_of_length_le (by omega)]
      simp only [List.nil_append, List.drop_drop, List.append_assoc]
      have ea : s.i * sizeof_long a + sizeof_long a
          + (s.i * sizeof_long a + sizeof_long a + n * sizeof_long a
            - (s.i * sizeof_long a + sizeof_long a))
          = s.i * sizeof_long a + sizeof_long a + n * sizeof_long a := by omega
      rw [ea, Nat.add_assoc base]
    · intro k hk
      rw [read_body_peeks_length]
      have := h (k + 1) (by omega)
      rwa [Nat.add_assoc, Nat.add_comm 1 k]
    · omega
    · rw [hi, read_body_copy_length _ _ _ _ _ _ (by omega), e4]
      omega

/-! ## The two transfer functions as a whole -/

theorem ROUNDUP_facts (a : Arch) (n : Nat) (h : n + sizeof_long a ≤ ULONG_MOD a) :
    ROUNDUP a n (sizeof_long a) / sizeof_long a = (n + sizeof_long a - 1) / sizeof_long a
    ∧ ROUNDUP a n (sizeof_long a)
        = (n + sizeof_long a - 1) / sizeof_long a * sizeof_long a
    ∧ n ≤ ROUNDUP a n (sizeof_long a)
    ∧ ROUNDUP a n (sizeof_long a) < n + sizeof_long a := by
  cases a <;>
    simp only [ROUNDUP, sizeof_long, ULONG_MOD, Nat.zero_le, if_true] at h ⊢ <;> omega

theorem xmalloc_length (junk : Nat → Nat) (n : Nat) : (xmalloc junk n).length = n := by
  simp [xmalloc]

theorem mem_assign_length (buf : List Nat) (n : Nat) (val : List Nat) (val_sz : Nat)
    (h : buf.length = n) : (mem_assign buf n val val_sz).length = n := by
  simp [mem_assign, h]

theorem mem_assign_getD (buf : List Nat) (n : Nat) (val : List Nat) (val_sz j : Nat)
    (hj : j < n) : (mem_assign buf n val val_sz).getD j 0 = val.getD (j % val_sz) 0 := by
  unfold mem_assign
  rw [List.getD_append _ _ _ _ (by simpa using hj)]
  rw [List.getD_eq_getElem _ _ (by simpa using hj)]
  simp

/-- With no wrap-around in the size and fewer than `2^32` words, `ptrace_write`
returns the state its loop body produces after one run per word, on a scratch
buffer `copy` holding the payload followed by trap bytes. -/
theorem ptrace_write_returns (a : Arch) (TRAP : List Nat) (TRAP_SZ : Nat) (junk : Nat → Nat)
    (poke_ok : Nat → Bool) (fuel : Nat) (mem : Memory) (pid : Int) (base : Nat)
    (data : List Nat)
    (hsz : data.length + TRAP_SZ + sizeof_long a ≤ ULONG_MOD a)
    (hcnt : (data.length + TRAP_SZ + sizeof_long a - 1) / sizeof_long a < UINT_MOD)
    (hf : (data.length + TRAP_SZ + sizeof_long a - 1) / sizeof_long a < fuel) :
    ∃ copy : List Nat,
      copy.length = (data.length + TRAP_SZ + sizeof_long a - 1) / sizeof_long a * sizeof_long a
      ∧ copy.take data.length = data
      ∧ (∀ j, data.length ≤ j → j < copy.length → copy.getD j 0 = TRAP.getD (j % TRAP_SZ) 0)
      ∧ ptrace_write a TRAP TRAP_SZ junk poke_ok fuel mem pid base data
        = .returned
          (((write_body a poke_ok pid base copy)^[(data.length + TRAP_SZ + sizeof_long a - 1)
              / sizeof_long a] ⟨0, 0, mem, []⟩).ret,
           ((write_body a poke_ok pid base copy)^[(data.length + TRAP_SZ + sizeof_long a - 1)
              / sizeof_long a] ⟨0, 0, mem, []⟩).mem,
           ((write_body a poke_ok pid base copy)^[(data.length + TRAP_SZ + sizeof_long a - 1)
              / sizeof_long a] ⟨0, 0, mem, []⟩).pokes) := by
  have hm := sizeof_long_pos a
  have hmod : (data.length + TRAP_SZ) % ULONG_MOD a = data.length + TRAP_SZ :=
    Nat.mod_eq_of_lt (by omega)
  obtain ⟨f1, f2, f3, f4⟩ := ROUNDUP_facts a (data.length + TRAP_SZ) hsz
  have hle : data.length ≤ ROUNDUP a (data.length + TRAP_SZ) (sizeof_long a) := by omega
  have hlen0 : (mem_assign (xmalloc junk (ROUNDUP a (data.length + TRAP_SZ) (sizeof_long a)))
      (ROUNDUP a (data.length + TRAP_SZ) (sizeof_long a)) TRAP TRAP_SZ).length
      = ROUNDUP a (data.length + TRAP_SZ) (sizeof_long a) :=
    mem_assign_length _ _ _ _ (xmalloc_length _ _)
  refine ⟨data ++ (mem_assign (xmalloc junk (ROUNDUP a (data.length + TRAP_SZ) (sizeof_long a)))
      (ROUNDUP a (data.length + TRAP_SZ) (sizeof_long a)) TRAP TRAP_SZ).drop data.length,
    ?_, ?_, ?_, ?_⟩
  · rw [List.length_append, List.length_drop, hlen0, ← f2]
    omega
  · simp
  · intro j hj1 hj2
    rw [List.length_append, List.length_drop, hlen0] at hj2
    rw [List.getD_append_right _ _ _ _ hj1]
    rw [List.getD_eq_getElem?_getD, List.getElem?_drop, ← List.getD_eq_getElem?_getD]
    rw [mem_assign_getD _ _ _ _ _ (by omega)]
    congr 2
    omega
  · simp only [ptrace_write, hmod, hle, if_true]
    rw [write_loop_returns a poke_ok pid base _ _ (by rw [f1]; exact hcnt)
      ((data.length + TRAP_SZ + sizeof_long a - 1) / sizeof_long a) ⟨0, 0, mem, []⟩ fuel
      (by rw [f1]; simp) hf]

/-- With no wrap-around in the size and fewer than `2^32` words, `ptrace_read`
returns the state its loop body produces after one run per word. -/
theorem ptrace_read_returns (a : Arch) (junk : Nat → Nat) (peek_ok : Nat → Bool)
    (fuel : Nat) (mem : Memory) (pid : Int) (base out_sz : Nat)
    (hsz : out_sz + sizeof_long a ≤ ULONG_MOD a)
    (hcnt : (out_sz + sizeof_long a - 1) / sizeof_long a < UINT_MOD)
    (hf : (out_sz + sizeof_long a - 1) / sizeof_long a < fuel) :
    ptrace_read a junk peek_ok fuel mem pid base out_sz
      = .returned
        (((read_body a peek_ok mem pid base)^[(out_sz + sizeof_long a - 1) / sizeof_long a]
            ⟨0, 0, xmalloc junk (ROUNDUP a out_sz (sizeof_long a)), []⟩).ret,
         (((read_body a peek_ok mem pid base)^[(out_sz + sizeof_long a - 1) / sizeof_long a]
            ⟨0, 0, xmalloc junk (ROUNDUP a out_sz (sizeof_long a)), []⟩).copy).take out_sz,
         ((read_body a peek_ok mem pid base)^[(out_sz + sizeof_long a - 1) / sizeof_long a]
            ⟨0, 0, xmalloc junk (ROUNDUP a out_sz (sizeof_long a)), []⟩).peeks) := by
  obtain ⟨f1, _, f3, _⟩ := ROUNDUP_facts a out_sz hsz
  simp only [ptrace_read]
  rw [read_loop_returns a peek_ok mem pid base _ (by rw [f1]; exact hcnt)
    ((out_sz + sizeof_long a - 1) / sizeof_long a) ⟨0, 0, _, []⟩ fuel
    (by rw [f1]; simp) hf]
  simp only [f3, if_true]

/-- When every peek succeeds the bytes handed to the caller are the tracee
bytes from `base` on. -/
theorem read_iter_out (a : Arch) (junk : Nat → Nat) (peek_ok : Nat → Bool)
    (mem : Memory) (pid : Int) (base out_sz : Nat)
    (hsz : out_sz + sizeof_long a ≤ ULONG_MOD a)
    (hcnt : (out_sz + sizeof_long a - 1) / sizeof_long a < UINT_MOD)
    (hok : ∀ k, k < (out_sz + sizeof_long a - 1) / sizeof_long a → peek_ok k = true) :
    (((read_body a peek_ok mem pid base)^[(out_sz + sizeof_long a - 1) / sizeof_long a]
        ⟨0, 0, xmalloc junk (ROUNDUP a out_sz (sizeof_long a)), []⟩).copy).take out_sz
      = load_bytes a mem base out_sz := by
  obtain ⟨_, f2, f3, _⟩ := ROUNDUP_facts a out_sz hsz
  rw [read_iter_copy a peek_ok mem pid base _ ⟨0, 0, _, []⟩
    (by intro k hk; simpa using hok k hk) (by simpa using hcnt)
    (by simp only [Nat.zero_add, xmalloc_length]; rw [f2])]
  simp only [Nat.zero_mul, List.take_zero, List.nil_append, Nat.add_zero, Nat.zero_add]
  rw [List.drop_of_length_le (by rw [xmalloc_length, f2]), List.append_nil]
  exact load_bytes_take a mem base _ _ (by rw [← f2]; exact f3)

/-- From `2^32` words on `ptrace_write` does not return: the `unsigned` counter
wraps to 0 before it reaches the word count. -/
theorem ptrace_write_unfinished (a : Arch) (TRAP : List Nat) (TRAP_SZ : Nat)
    (junk : Nat → Nat) (poke_ok : Nat → Bool) (fuel : Nat) (mem : Memory) (pid : Int)
    (base : Nat) (data : List Nat)
    (hsz : data.length + TRAP_SZ + sizeof_long a ≤ ULONG_MOD a)
    (hbig : UINT_MOD ≤ (data.length + TRAP_SZ + sizeof_long a - 1) / sizeof_long a) :
    ptrace_write a TRAP TRAP_SZ junk poke_ok fuel mem pid base data = .unfinished := by
  have hm := sizeof_long_pos a
  have hmod : (data.length + TRAP_SZ) % ULONG_MOD a = data.length + TRAP_SZ :=
    Nat.mod_eq_of_lt (by omega)
  obtain ⟨f1, f2, f3, f4⟩ := ROUNDUP_facts a (data.length + TRAP_SZ) hsz
  have hle : data.length ≤ ROUNDUP a (data.length + TRAP_SZ) (sizeof_long a) := by omega
  simp only [ptrace_write, hmod, hle, if_true]
  rw [write_loop_unfinished a poke_ok pid base _ _ (by rw [f1]; exact hbig) fuel
    ⟨0, 0, mem, []⟩ (by simp [UINT_MOD])]

/-- From `2^32` words on `ptrace_read` does not return. -/
theorem ptrace_read_unfinished (a : Arch) (junk : Nat → Nat) (peek_ok : Nat → Bool)
    (fuel : Nat) (mem : Memory) (pid : Int) (base out_sz : Nat)
    (hsz : out_sz + sizeof_long a ≤ ULONG_MOD a)
    (hbig : UINT_MOD ≤ (out_sz + sizeof_long a - 1) / sizeof_long a) :
    ptrace_read a junk peek_ok fuel mem pid base out_sz = .unfinished := by
  obtain ⟨f1, _, _, _⟩ := ROUNDUP_facts a out_sz hsz
  simp only [ptrace_read]
  rw [read_loop_unfinished a peek_ok mem pid base _ (by rw [f1]; exact hbig) fuel
    ⟨0, 0, _, []⟩ (by simp [UINT_MOD])]

/-- While the counter of the write loop stays below `2^32`, no poke reaches an
address from `base + 2^35` up to the top of the amd64 address space. -/
theorem write_iter_untouched (poke_ok : Nat → Bool) (pid : Int) (base : Nat)
    (copy : List Nat) (x : Nat) (hb : base + 34359738368 ≤ x)
    (hx : x < 18446744073709551616) (k : Nat) (s : WriteLoop) (hs : s.i < UINT_MOD) :
    ((write_body .amd64 poke_ok pid base copy)^[k] s).mem x = s.mem x := by
  induction k generalizing s with
  | zero => rfl
  | succ k ih =>
    rw [Function.iterate_succ_apply, ih]
    · simp only [write_body]
      split
      · rfl
      · apply store_bytes_other
        intro j hj
        simp only [List.length_take, List.length_drop, sizeof_long] at hj
        simp only [sizeof_long, ULONG_MOD, UINT_MOD] at hs ⊢
        omega
    · rw [write_body_i]
      exact Nat.mod_lt _ (by simp [UINT_MOD])

/-- Requests and return value of the write loop after `n` runs of its body. -/
theorem write_iter_summary (a : Arch) (poke_ok : Nat → Bool) (pid : Int) (base : Nat)
    (copy : List Nat) (mem : Memory) (n : Nat) (hn : n < UINT_MOD) :
    (((write_body a poke_ok pid base copy)^[n] ⟨0, 0, mem, []⟩).pokes.map (fun p => p.addr)
        = (List.range n).map (fun i => (base + i * sizeof_long a) % ULONG_MOD a))
    ∧ (((write_body a poke_ok pid base copy)^[n] ⟨0, 0, mem, []⟩).ret = 0
        ↔ ∀ i, i < n → poke_ok i = true)
    ∧ (((write_body a poke_ok pid base copy)^[n] ⟨0, 0, mem, []⟩).ret = -1
        ↔ ∃ i, i < n ∧ poke_ok i = false) := by
  refine ⟨?_, ?_, ?_⟩
  · rw [write_iter_pokes a poke_ok pid base copy n ⟨0, 0, mem, []⟩ (by simpa using hn)]
    simp [List.range_eq_range']
  · by_cases h : ∀ i, i < n → poke_ok i = true
    · have := write_iter_ret_ok a poke_ok pid base copy n ⟨0, 0, mem, []⟩
        (by intro k hk; simpa using h k hk)
      simp only [this, true_iff]
      exact h
    · have h2 := h
      push_neg at h2
      obtain ⟨i, hi, hne⟩ := h2
      have := write_iter_ret_failed a poke_ok pid base copy n ⟨0, 0, mem, []⟩ i hi
        (by simpa using hne)
      rw [this]
      simp [h]
  · by_cases h : ∀ i, i < n → poke_ok i = true
    · have := write_iter_ret_ok a poke_ok pid base copy n ⟨0, 0, mem, []⟩
        (by intro k hk; simpa using h k hk)
      rw [this]
      constructor
      · intro h0
        simp at h0
      · rintro ⟨i, hi, hne⟩
        rw [h i hi] at hne
        cases hne
    · have h2 := h
      push_neg at h2
      obtain ⟨i, hi, hne⟩ := h2
      have := write_iter_ret_failed a poke_ok pid base copy n ⟨0, 0, mem, []⟩ i hi
        (by simpa using hne)
      simp only [this, true_iff]
      exact ⟨i, hi, by simpa using hne⟩

/-- Requests and return value of the read loop after `n` runs of its body. -/
theorem read_iter_summary (a : Arch) (peek_ok : Nat → Bool) (mem : Memory) (pid : Int)
    (base : Nat) (copy : List Nat) (n : Nat) (hn : n < UINT_MOD) :
    (((read_body a peek_ok mem pid base)^[n] ⟨0, 0, copy, []⟩).peeks.map (fun p => p.addr)
        = (List.range n).map (fun i => (base + i * sizeof_long a) % ULONG_MOD a))
    ∧ (((read_body a peek_ok mem pid base)^[n] ⟨0, 0, copy, []⟩).ret = 0
        ↔ ∀ i, i < n → peek_ok i = true)
    ∧ (((read_body a peek_ok mem pid base)^[n] ⟨0, 0, copy, []⟩).ret = -1
        ↔ ∃ i, i < n ∧ peek_ok i = false) := by
  refine ⟨?_, ?_, ?_⟩
  · rw [read_iter_peeks a peek_ok mem pid base n ⟨0, 0, copy, []⟩ (by simpa using hn)]
    simp [List.range_eq_range']
  · by_cases h : ∀ i, i < n → peek_ok i = true
    · have := read_iter_ret_ok a peek_ok mem pid base n ⟨0, 0, copy, []⟩
        (by intro k hk; simpa using h k hk)
      simp only [this, true_iff]
      exact h
    · have h2 := h
      push_neg at h2
      obtain ⟨i, hi, hne⟩ := h2
      have := read_iter_ret_failed a peek_ok mem pid base n ⟨0, 0, copy, []⟩ i hi
        (by simpa using hne)
      rw [this]
      simp [h]
  · by_cases h : ∀ i, i < n → peek_ok i = true
    · have := read_iter_ret_ok a peek_ok mem pid base n ⟨0, 0, copy, []⟩
        (by intro k hk; simpa using h k hk)
      rw [this]
      constructor
      · intro h0
        simp at h0
      · rintro ⟨i, hi, hne⟩
        rw [h i hi] at hne
        cases hne
    · have h2 := h
      push_neg at h2
      obtain ⟨i, hi, hne⟩ := h2
      have := read_iter_ret_failed a peek_ok mem pid base n ⟨0, 0, copy, []⟩ i hi
        (by simpa using hne)
      simp only [this, true_iff]
      exact ⟨i, hi, by simpa using hne⟩

/-! ## Facts about the wait-status macros and the snapshots -/

theorem SIGTRAP_EVENT_EXIT : Int.ofNat (SIGTRAP ||| (PTRACE_EVENT_EXIT <<< 8)) = 1541 := by
  decide

theorem SIGTRAP_val : Int.ofNat SIGTRAP = 5 := rfl

/-- A stop status is neither an exit status nor a termination status. -/
theorem stopped_not_exited (status : Int) (h : WIFSTOPPED status = true) :
    WIFEXITED status = false ∧ WIFSIGNALED status = false := by
  simp only [WIFSTOPPED, WIFEXITED, WIFSIGNALED, WTERMSIG, signed_char, beq_iff_eq,
    beq_eq_false_iff_ne, decide_eq_false_iff_not] at h ⊢
  constructor
  · omega
  · split <;> omega

/-- No status is both an exit status and a termination status. -/
theorem not_exited_and_signaled (status : Int) :
    ¬ (WIFEXITED status = true ∧ WIFSIGNALED status = true) := by
  simp only [WIFEXITED, WIFSIGNALED, WTERMSIG, signed_char, beq_iff_eq, decide_eq_true_eq]
  rintro ⟨h1, h2⟩
  rw [h1] at h2
  simp at h2

/-- A snapshot whose register requests succeed: the new `info`, field by field. -/
theorem collect_regs_eq (a : Arch) (k : Kernel) (pid : Int) (info : proc_info_t)
    (r f x : Regs) (hr : k.getregset_prstatus = some r) (hf : k.getregset_fpregset = some f)
    (hx : a = .i386 → k.getregset_prxfpreg = some x) :
    _collect_regs a k pid info
      = some ({ pid := pid, regs_struct := r, old_regs_struct := info.regs_struct,
                fpregs_struct := f, old_fpregs_struct := info.fpregs_struct,
                fpxregs_struct := if a = .i386 then x else info.fpxregs_struct,
                old_fpxregs_struct :=
                  if a = .i386 then info.fpxregs_struct else info.old_fpxregs_struct,
                sig := -1, exit_code := -1 }, collect_log a pid) := by
  cases a
  · simp [_collect_regs, hr, hf, hx, collect_log]
  · simp [_collect_regs, hr, hf, collect_log]

/-- Whatever options the tracee had, after a `ptrace_launch` that returns it has
those of the last `PTRACE_SETOPTIONS` request. -/
theorem launch_options_replaced (k : Kernel) (pid : Int) (opts : Nat)
    (r : Nat × List Request) (h : ptrace_launch k pid opts = some r) :
    r.1 = PTRACE_O_TRACEEXIT := by
  cases hw : k.waitpid with
  | none => simp [ptrace_launch, hw] at h
  | some status =>
    by_cases h1 : k.setoptions PTRACE_O_EXITKILL = true
    · by_cases h2 : k.setoptions PTRACE_O_TRACEEXIT = true
      · simp [ptrace_launch, ptrace_setoptions, hw, h1, h2] at h
        rw [← h]
      · simp [ptrace_launch, ptrace_setoptions, hw, h1, h2] at h
    · simp [ptrace_launch, ptrace_setoptions, hw, h1] at h

/-- The five kinds of status on amd64, every request succeeding, with the
forwarding flag off and on: exit with code 0, killed by signal 9, the exit-event
stop `0x6057f`, the plain trap stop `0x057f`, a stop on signal 10. -/
theorem reap_examples :
    (ptrace_reap .amd64 false (kernel_ok 0 [1] [2] [3] 5 42) 9 (fresh_info 9)).map Prod.fst
      = some 1
    ∧ (ptrace_reap .amd64 false (kernel_ok 9 [1] [2] [3] 5 42) 9 (fresh_info 9)).map Prod.fst
      = some 1
    ∧ (ptrace_reap .amd64 false (kernel_ok 394623 [1] [2] [3] 5 42) 9 (fresh_info 9)).map
      Prod.fst = some 1
    ∧ (ptrace_reap .amd64 false (kernel_ok 1407 [1] [2] [3] 5 42) 9 (fresh_info 9)).map
      Prod.fst = some 0
    ∧ (ptrace_reap .amd64 false (kernel_ok 2687 [1] [2] [3] 5 42) 9 (fresh_info 9)).map
      Prod.fst = some 0
    ∧ (ptrace_reap .amd64 true (kernel_ok 0 [1] [2] [3] 5 42) 9 (fresh_info 9)).map Prod.fst
      = some 1
    ∧ (ptrace_reap .amd64 true (kernel_ok 9 [1] [2] [3] 5 42) 9 (fresh_info 9)).map Prod.fst
      = some 1
    ∧ (ptrace_reap .amd64 true (kernel_ok 394623 [1] [2] [3] 5 42) 9 (fresh_info 9)).map
      Prod.fst = some 1
    ∧ (ptrace_reap .amd64 true (kernel_ok 1407 [1] [2] [3] 5 42) 9 (fresh_info 9)).map
      Prod.fst = some 0
    ∧ (ptrace_reap .amd64 true (kernel_ok 2687 [1] [2] [3] 5 42) 9 (fresh_info 9)).map
      Prod.fst = some 0 := by
  decide

/-- An exit-aware snapshot whose requests succeed. -/
theorem exited_collect_regs_eq (a : Arch) (k : Kernel) (pid : Int) (info : proc_info_t)
    (r f x : Regs) (sg msg : Int)
    (hr : k.getregset_prstatus = some r) (hf : k.getregset_fpregset = some f)
    (hx : a = .i386 → k.getregset_prxfpreg = some x)
    (hs : k.getsiginfo = some sg) (he : k.geteventmsg = some msg) :
    _exited_collect_regs a k pid info
      = some ({ pid := pid, regs_struct := r, old_regs_struct := info.regs_struct,
                fpregs_struct := f, old_fpregs_struct := info.fpregs_struct,
                fpxregs_struct := if a = .i386 then x else info.fpxregs_struct,
                old_fpxregs_struct :=
                  if a = .i386 then info.fpxregs_struct else info.old_fpxregs_struct,
                sig := sg, exit_code := msg },
              collect_log a pid ++ [Request.getsiginfo pid, Request.geteventmsg pid]) := by
  simp [_exited_collect_regs, collect_regs_eq a k pid info r f x hr hf hx, hs, he]

/-- With every request succeeding the return value of `ptrace_reap` is a function
of the status alone. -/
theorem reap_ret_eq (a : Arch) (passsig : Bool) (k : Kernel) (pid : Int)
    (info : proc_info_t) (status : Int) (r f x : Regs) (sg msg : Int)
    (hw : k.waitpid = some status)
    (hr : k.getregset_prstatus = some r) (hf : k.getregset_fpregset = some f)
    (hx : a = .i386 → k.getregset_prxfpreg = some x)
    (hs : k.getsiginfo = some sg) (he : k.geteventmsg = some msg) (hc : k.cont = true) :
    (ptrace_reap a passsig k pid info).map Prod.fst
      = some (if WIFEXITED status = true ∨ WIFSIGNALED status = true
                ∨ status / (256 : Int) = Int.ofNat (SIGTRAP ||| (PTRACE_EVENT_EXIT <<< 8))
              then 1 else 0) := by
  unfold ptrace_reap
  rw [hw]
  simp only [exited_collect_regs_eq a k pid info r f x sg msg hr hf hx hs he,
    collect_regs_eq a k pid info r f x hr hf hx, REQUIRE, hc, if_true]
  by_cases h1 : WIFEXITED status = true
  · rw [if_pos h1, if_pos (Or.inl h1)]
    rfl
  · rw [if_neg h1]
    by_cases h2 : WIFSIGNALED status = true
    · rw [if_pos h2, if_pos (Or.inr (Or.inl h2))]
      rfl
    · rw [if_neg h2]
      by_cases h3 : status / (256 : Int) = Int.ofNat (SIGTRAP ||| (PTRACE_EVENT_EXIT <<< 8))
      · rw [if_pos h3, if_pos (Or.inr (Or.inr h3))]
        rfl
      · have hn : ¬ (WIFEXITED status = true ∨ WIFSIGNALED status = true
            ∨ status / (256 : Int) = Int.ofNat (SIGTRAP ||| (PTRACE_EVENT_EXIT <<< 8))) := by
          rintro (h | h | h)
          · exact h1 h
          · exact h2 h
          · exact h3 h
        rw [if_neg h3, if_neg hn]
        by_cases h4 : status / (256 : Int) = Int.ofNat SIGTRAP
        · rw [if_pos h4]
          rfl
        · rw [if_neg h4]
          cases passsig <;> rfl

/-! ## Request logs -/

theorem collect_log_quiet (a : Arch) (pid : Int) : ∀ r ∈ collect_log a pid, is_quiet r = true := by
  cases a <;> simp [collect_log, is_quiet]

theorem collect_regs_log (a : Arch) (k : Kernel) (pid : Int) (info info1 : proc_info_t)
    (log : List Request) (h : _collect_regs a k pid info = some (info1, log)) :
    log = collect_log a pid := by
  cases hr : k.getregset_prstatus with
  | none => simp [_collect_regs, hr] at h
  | some r =>
    cases hf : k.getregset_fpregset with
    | none => simp [_collect_regs, hr, hf] at h
    | some f =>
      cases a with
      | amd64 =>
        simp [_collect_regs, hr, hf] at h
        exact h.2.symm
      | i386 =>
        cases hx : k.getregset_prxfpreg with
        | none => simp [_collect_regs, hr, hf, hx] at h
        | some x =>
          simp [_collect_regs, hr, hf, hx] at h
          exact h.2.symm

theorem tracee_after_all_quiet (s : RunState) (l : List Request)
    (hq : ∀ r ∈ l, is_quiet r = true) : tracee_after_all s l = s := by
  induction l with
  | nil => rfl
  | cons r l ih =>
    have h0 := hq r (by simp)
    have ih2 := ih (fun r hr => hq r (by simp [hr]))
    unfold tracee_after_all at ih2 ⊢
    rw [List.foldl_cons]
    cases r <;> simp [is_quiet] at h0 <;> simpa [tracee_after] using ih2

theorem acts_on_stopped_quiet (l rest : List Request)
    (hq : ∀ r ∈ l, is_quiet r = true) :
    acts_on_stopped .Stopped (l ++ rest) = acts_on_stopped .Stopped rest := by
  induction l with
  | nil => rfl
  | cons r l ih =>
    have h0 := hq r (by simp)
    have ih2 := ih (fun r hr => hq r (by simp [hr]))
    cases r <;> simp [is_quiet] at h0 <;> simpa [acts_on_stopped, tracee_after] using ih2

theorem conts_between_waits_quiet (st : Option Nat) (l rest : List Request)
    (hq : ∀ r ∈ l, is_quiet r = true) :
    conts_between_waits st (l ++ rest) = conts_between_waits st rest := by
  induction l with
  | nil => rfl
  | cons r l ih =>
    have h0 := hq r (by simp)
    have ih2 := ih (fun r hr => hq r (by simp [hr]))
    cases st <;> cases r <;> simp [is_quiet] at h0 <;>
      simpa [conts_between_waits] using ih2

/-- A `ptrace_cont` whose requests succeed: a snapshot, then one continue request. -/
theorem ptrace_cont_log (a : Arch) (k : Kernel) (pid : Int) (info : proc_info_t)
    (hk : answers_all k = true) :
    ∃ info1, ptrace_cont a k pid info
      = some (info1, collect_log a pid ++ [Request.cont pid 0]) := by
  simp only [answers_all, Bool.and_eq_true, Option.isSome_iff_exists] at hk
  obtain ⟨⟨⟨⟨⟨⟨_, r, hr⟩, f, hf⟩, x, hx⟩, _⟩, _⟩, hc⟩ := hk
  simp only [ptrace_cont, collect_regs_eq a k pid info r f x hr hf (fun _ => hx), REQUIRE, hc]
  exact ⟨_, rfl⟩

/-- A `ptrace_reap` with the forwarding flag off whose requests succeed: the
wait, then only quiet requests, and none at all after an exit or termination
status; it returns 0 only for a status that is neither. -/
theorem ptrace_reap_log (a : Arch) (k : Kernel) (pid : Int) (info : proc_info_t)
    (hk : answers_all k = true) :
    ∃ status ret info1 q, ptrace_reap a false k pid info
        = some (ret, info1, Request.waitpid pid status :: q)
      ∧ (∀ r ∈ q, is_quiet r = true)
      ∧ (q = [] ∨ (WIFEXITED status = false ∧ WIFSIGNALED status = false))
      ∧ (ret = 0 → WIFEXITED status = false ∧ WIFSIGNALED status = false) := by
  simp only [answers_all, Bool.and_eq_true, Option.isSome_iff_exists] at hk
  obtain ⟨⟨⟨⟨⟨⟨⟨status, hw⟩, r, hr⟩, f, hf⟩, x, hx⟩, sg, hs⟩, msg, he⟩, hc⟩ := hk
  refine ⟨status, ?_⟩
  unfold ptrace_reap
  rw [hw]
  simp only [exited_collect_regs_eq a k pid info r f x sg msg hr hf (fun _ => hx) hs he,
    collect_regs_eq a k pid info r f x hr hf (fun _ => hx)]
  have hq := collect_log_quiet a pid
  by_cases h1 : WIFEXITED status = true
  · rw [if_pos h1]
    exact ⟨_, _, _, rfl, by simp, Or.inl rfl, by simp⟩
  · rw [if_neg h1]
    by_cases h2 : WIFSIGNALED status = true
    · rw [if_pos h2]
      exact ⟨_, _, _, rfl, by simp, Or.inl rfl, by simp⟩
    · rw [if_neg h2]
      have h12 : WIFEXITED status = false ∧ WIFSIGNALED status = false := by
        simpa using And.intro h1 h2
      by_cases h3 : status / (256 : Int) = Int.ofNat (SIGTRAP ||| (PTRACE_EVENT_EXIT <<< 8))
      · rw [if_pos h3]
        refine ⟨_, _, _, rfl, ?_, Or.inr h12, fun _ => h12⟩
        intro r hr
        rcases List.mem_append.mp hr with h | h
        · exact hq r h
        · simp at h
          rcases h with h | h <;> simp [h, is_quiet]
      · rw [if_neg h3]
        by_cases h4 : status / (256 : Int) = Int.ofNat SIGTRAP
        · rw [if_pos h4]
          exact ⟨_, _, _, rfl, hq, Or.inr h12, fun _ => h12⟩
        · rw [if_neg h4]
          exact ⟨_, _, _, rfl, hq, Or.inr h12, fun _ => h12⟩

/-- A session with the forwarding flag off whose requests all succeed runs to its
end; its requests act on a stopped tracee, and from a first wait on there is one
continue request before each further wait. -/
theorem session_alternates (a : Arch) (pid : Int) (ks : List (Kernel × Kernel))
    (info : proc_info_t)
    (hks : ∀ p ∈ ks, answers_all p.1 = true ∧ answers_all p.2 = true)
    (st : Option Nat) (hst : st = none ∨ st = some 0) :
    ∃ info2 log, session a false pid ks info = some (info2, log)
      ∧ acts_on_stopped .Stopped log = true
      ∧ ∀ n ∈ conts_between_waits st log, n = 1 := by
  induction ks generalizing info st with
  | nil =>
    refine ⟨info, [], rfl, rfl, ?_⟩
    cases st <;> simp [conts_between_waits]
  | cons p ks ih =>
    obtain ⟨kc, kr⟩ := p
    obtain ⟨hc, hr⟩ := hks (kc, kr) (by simp)
    obtain ⟨i1, h1⟩ := ptrace_cont_log a kc pid info hc
    obtain ⟨status, ret, i2, q, h2, hq, hqe, hret⟩ := ptrace_reap_log a kr pid i1 hr
    have hG := collect_log_quiet a pid
    obtain ⟨i3, l3, h3, hact3, hcb3⟩ :=
      ih i2 (fun p hp => hks p (by simp [hp])) (some 0) (Or.inr rfl)
    have hcb : ∀ rest, (∀ n ∈ conts_between_waits (some 0) rest, n = 1) →
        ∀ n ∈ conts_between_waits st
          (collect_log a pid ++ ([Request.cont pid 0]
            ++ (Request.waitpid pid status :: (q ++ rest)))), n = 1 := by
      intro rest hrest n hn
      rw [conts_between_waits_quiet st _ _ hG] at hn
      rcases hst with h | h
      · subst h
        simp only [List.singleton_append, conts_between_waits] at hn
        rw [conts_between_waits_quiet _ _ _ hq] at hn
        exact hrest n hn
      · subst h
        simp only [List.singleton_append, conts_between_waits, List.mem_cons] at hn
        rw [conts_between_waits_quiet _ _ _ hq] at hn
        rcases hn with h | h
        · exact h
        · exact hrest n h
    simp only [session, h1, h2]
    by_cases hz : ret = 0
    · obtain ⟨e1, e2⟩ := hret hz
      simp only [hz, ne_eq, not_true_eq_false, if_false, h3]
      refine ⟨_, _, rfl, ?_, ?_⟩
      · simp only [List.append_assoc]
        rw [acts_on_stopped_quiet _ _ hG]
        simp only [List.singleton_append, List.cons_append, acts_on_stopped, tracee_after,
          e1, e2, Bool.or_self, Bool.false_eq_true, if_false, beq_self_eq_true, Bool.true_and]
        show acts_on_stopped .Stopped (q ++ l3) = true
        rw [acts_on_stopped_quiet _ _ hq]
        exact hact3
      · simp only [List.append_assoc, List.cons_append]
        exact hcb l3 hcb3
    · simp only [ne_eq, hz, not_false_eq_true, if_true]
      refine ⟨_, _, rfl, ?_, ?_⟩
      · simp only [List.append_assoc]
        rw [acts_on_stopped_quiet _ _ hG]
        simp only [List.singleton_append, acts_on_stopped, tracee_after,
          beq_self_eq_true, Bool.true_and]
        rcases hqe with h | ⟨e1, e2⟩
        · subst h
          rfl
        · simp only [e1, e2, Bool.or_self, Bool.false_eq_true, if_false]
          have := acts_on_stopped_quiet q [] hq
          rw [List.append_nil] at this
          rw [this]
          rfl
      · have := hcb [] (by simp [conts_between_waits])
        simp only [List.append_nil] at this
        simpa only [List.append_assoc] using this

/-- The requests of a `ptrace_reap` that returns 0: the wait and a snapshot,
followed by a continue request exactly when the forwarding flag is on and the
stop is not a plain `SIGTRAP` stop; the status is neither exit nor termination. -/
theorem reap_zero_log (a : Arch) (passsig : Bool) (k : Kernel) (pid : Int)
    (info info1 : proc_info_t) (status : Int) (log : List Request)
    (hw : k.waitpid = some status)
    (hret : ptrace_reap a passsig k pid info = some (0, info1, log)) :
    (log = Request.waitpid pid status :: collect_log a pid
      ∨ (passsig = true ∧ status / (256 : Int) ≠ Int.ofNat SIGTRAP
        ∧ log = Request.waitpid pid status :: collect_log a pid
          ++ [Request.cont pid (WSTOPSIG status)]))
    ∧ WIFEXITED status = false ∧ WIFSIGNALED status = false := by
  unfold ptrace_reap at hret
  rw [hw] at hret
  simp only at hret
  by_cases h1 : WIFEXITED status = true
  · rw [if_pos h1] at hret
    simp at hret
  · rw [if_neg h1] at hret
    by_cases h2 : WIFSIGNALED status = true
    · rw [if_pos h2] at hret
      simp at hret
    · rw [if_neg h2] at hret
      refine ⟨?_, by simpa using h1, by simpa using h2⟩
      by_cases h3 : status / (256 : Int) = Int.ofNat (SIGTRAP ||| (PTRACE_EVENT_EXIT <<< 8))
      · rw [if_pos h3] at hret
        cases hc : _exited_collect_regs a k pid info with
        | none => simp [hc] at hret
        | some v => simp [hc] at hret
      · rw [if_neg h3] at hret
        cases hc : _collect_regs a k pid info with
        | none => simp [hc] at hret
        | some v =>
          obtain ⟨i, l⟩ := v
          have hl := collect_regs_log a k pid info i l hc
          subst hl
          simp only [hc] at hret
          by_cases h4 : status / (256 : Int) = Int.ofNat SIGTRAP
          · rw [if_pos h4] at hret
            simp only [Option.some.injEq, Prod.mk.injEq, true_and] at hret
            exact Or.inl hret.2.symm
          · rw [if_neg h4] at hret
            cases passsig with
            | false =>
              simp only [Bool.false_eq_true, if_false, Option.some.injEq, Prod.mk.injEq,
                true_and] at hret
              exact Or.inl hret.2.symm
            | true =>
              simp only [if_true] at hret
              cases hq : REQUIRE k.cont with
              | none => simp [hq] at hret
              | some u =>
                simp only [hq, Option.some.injEq, Prod.mk.injEq, true_and] at hret
                exact Or.inr ⟨rfl, h4, hret.2.symm⟩

/-- With the forwarding flag on and a stop that is not a plain `SIGTRAP` stop, a
`ptrace_reap` that returns 0 has issued more than the wait and the snapshot. -/
theorem reap_zero_forwarded (a : Arch) (k : Kernel) (pid : Int)
    (info info1 : proc_info_t) (status : Int) (log : List Request)
    (hw : k.waitpid = some status)
    (hret : ptrace_reap a true k pid info = some (0, info1, log))
    (h4 : status / (256 : Int) ≠ Int.ofNat SIGTRAP)
    (hl : log = Request.waitpid pid status :: collect_log a pid) : False := by
  unfold ptrace_reap at hret
  rw [hw] at hret
  simp only at hret
  by_cases h1 : WIFEXITED status = true
  · rw [if_pos h1] at hret
    simp at hret
  · rw [if_neg h1] at hret
    by_cases h2 : WIFSIGNALED status = true
    · rw [if_pos h2] at hret
      simp at hret
    · rw [if_neg h2] at hret
      by_cases h3 : status / (256 : Int) = Int.ofNat (SIGTRAP ||| (PTRACE_EVENT_EXIT <<< 8))
      · rw [if_pos h3] at hret
        cases hc : _exited_collect_regs a k pid info with
        | none => simp [hc] at hret
        | some v => simp [hc] at hret
      · rw [if_neg h3] at hret
        cases hc : _collect_regs a k pid info with
        | none => simp [hc] at hret
        | some v =>
          obtain ⟨i, l⟩ := v
          have hl2 := collect_regs_log a k pid info i l hc
          subst hl2
          simp only [hc] at hret
          rw [if_neg h4] at hret
          simp only [if_true] at hret
          cases hq : REQUIRE k.cont with
          | none => simp [hq] at hret
          | some u =>
            simp only [hq, Option.some.injEq, Prod.mk.injEq, true_and] at hret
            have := hret.2
            rw [hl] at this
            simp at this

/-! ## Claims about rounding and the memory transfer -/

/-- C3 (counterexample): on amd64 the macro maps the byte count `2^64 - 1` to 0:
`n + m - 1` wraps around, so the result is not `≥ n`. -/
theorem ROUNDUP_wraps_below_n :
    ROUNDUP .amd64 18446744073709551615 (sizeof_long .amd64) = 0
    ∧ ¬ 18446744073709551615 ≤ ROUNDUP .amd64 18446744073709551615 (sizeof_long .amd64) := by
  simp [ROUNDUP, sizeof_long, ULONG_MOD]

/-- C3 (amended): for every byte count `n` and `m = sizeof(long)`, `ROUNDUP(n, m)`
in `size_t` arithmetic is a multiple of `m` and is `< n + m`; it is `≥ n` exactly
when `n + m` does not exceed `2^w` (no wrap-around); `ROUNDUP(0, m) = 0`; and
`ROUNDUP(k*m, m) = k*m` for every `k`, the product taken in `size_t`. -/
theorem ROUNDUP_rounding_rule (a : Arch) (n k : Nat) :
    sizeof_long a ∣ ROUNDUP a n (sizeof_long a)
    ∧ ROUNDUP a n (sizeof_long a) < n + sizeof_long a
    ∧ (n ≤ ROUNDUP a n (sizeof_long a) ↔ n + sizeof_long a ≤ ULONG_MOD a)
    ∧ ROUNDUP a 0 (sizeof_long a) = 0
    ∧ ROUNDUP a (k * sizeof_long a % ULONG_MOD a) (sizeof_long a)
        = k * sizeof_long a % ULONG_MOD a := by
  refine ⟨?_, ?_, ⟨?_, ?_⟩, ?_, ?_⟩ <;> cases a <;>
    simp only [ROUNDUP, sizeof_long, ULONG_MOD, Nat.zero_le, if_true] <;> omega

/-- C1 (failing input): on amd64 a payload of `2^35` bytes needs `2^32 + 1` words;
the counter `unsigned i` of line 97 wraps to 0 before it reaches that count, so
`ptrace_write` never returns on it although every poke succeeds: the write half
of the round trip does not return 0. -/
theorem write_never_returns_on_2pow35 :
    ¬ ∃ fuel r, ptrace_write .amd64 [204] 1 (fun _ => 0) (fun _ => true) fuel (fun _ => 0)
        1 4194304 (List.replicate 34359738368 144) = .returned r := by
  rintro ⟨fuel, r, h⟩
  rw [ptrace_write_unfinished .amd64 [204] 1 (fun _ => 0) (fun _ => true) fuel (fun _ => 0)
    1 4194304 (List.replicate 34359738368 144)
    (by rw [List.length_replicate]; simp [sizeof_long, ULONG_MOD])
    (by rw [List.length_replicate]; simp [sizeof_long, UINT_MOD])] at h
  cases h

/-- Round trip within the range of the loop counter: when the size computation
does not wrap (`L + TRAP_SZ + sizeof(long) ≤ 2^w`) and the payload needs fewer
than `2^32` words, then for every pid, base address and payload of length `L`, if
every poke of `ptrace_write` and every peek of the following `ptrace_read`
succeeds, both calls return 0 and the `L` bytes copied out are the payload. -/
theorem write_read_roundtrip (a : Arch) (TRAP : List Nat) (TRAP_SZ : Nat)
    (junk junk2 : Nat → Nat) (poke_ok peek_ok : Nat → Bool) (fuel : Nat) (mem : Memory)
    (pid : Int) (base : Nat) (data : List Nat)
    (hsz : data.length + TRAP_SZ + sizeof_long a ≤ ULONG_MOD a)
    (hcnt : ROUNDUP a (data.length + TRAP_SZ) (sizeof_long a) / sizeof_long a < UINT_MOD)
    (hf : ROUNDUP a (data.length + TRAP_SZ) (sizeof_long a) / sizeof_long a < fuel)
    (hpoke : ∀ k, k < ROUNDUP a (data.length + TRAP_SZ) (sizeof_long a) / sizeof_long a →
      poke_ok k = true)
    (hpeek : ∀ k, k < ROUNDUP a data.length (sizeof_long a) / sizeof_long a →
      peek_ok k = true) :
    ∃ mem2 pokes peeks,
      ptrace_write a TRAP TRAP_SZ junk poke_ok fuel mem pid base data
        = .returned (0, mem2, pokes)
      ∧ ptrace_read a junk2 peek_ok fuel mem2 pid base data.length
        = .returned (0, data, peeks) := by
  have hm := sizeof_long_pos a
  obtain ⟨f1, f2, f3, f4⟩ := ROUNDUP_facts a (data.length + TRAP_SZ) hsz
  obtain ⟨g1, g2, g3, g4⟩ := ROUNDUP_facts a data.length (by omega)
  rw [f1] at hcnt hf hpoke
  rw [g1] at hpeek
  have hle : (data.length + sizeof_long a - 1) / sizeof_long a
      ≤ (data.length + TRAP_SZ + sizeof_long a - 1) / sizeof_long a :=
    Nat.div_le_div_right (by omega)
  obtain ⟨copy, hlen, htake, _, hw⟩ := ptrace_write_returns a TRAP TRAP_SZ junk poke_ok fuel
    mem pid base data hsz hcnt hf
  have hret := write_iter_ret_ok a poke_ok pid base copy
    ((data.length + TRAP_SZ + sizeof_long a - 1) / sizeof_long a) ⟨0, 0, mem, []⟩
    (by intro k hk; simpa using hpoke k hk)
  have hmem := write_iter_mem a poke_ok pid base copy
    ((data.length + TRAP_SZ + sizeof_long a - 1) / sizeof_long a) ⟨0, 0, mem, []⟩
    (by intro k hk; simpa using hpoke k hk) (by simpa using hcnt)
    (by simp only [Nat.zero_add]; omega)
  simp only [Nat.zero_mul, Nat.add_zero, List.drop_zero] at hmem
  rw [List.take_of_length_le (by omega)] at hmem
  generalize (write_body a poke_ok pid base copy)^[(data.length + TRAP_SZ + sizeof_long a - 1)
      / sizeof_long a] ⟨0, 0, mem, []⟩ = S at hw hret hmem
  have hr := ptrace_read_returns a junk2 peek_ok fuel S.mem pid base data.length
    (by omega) (by omega) (by omega)
  have hret2 := read_iter_ret_ok a peek_ok S.mem pid base
    ((data.length + sizeof_long a - 1) / sizeof_long a)
    ⟨0, 0, xmalloc junk2 (ROUNDUP a data.length (sizeof_long a)), []⟩
    (by intro k hk; simpa using hpeek k hk)
  have hout := read_iter_out a junk2 peek_ok S.mem pid base data.length (by omega)
    (by omega) hpeek
  generalize (read_body a peek_ok S.mem pid base)^[(data.length + sizeof_long a - 1)
      / sizeof_long a] ⟨0, 0, xmalloc junk2 (ROUNDUP a data.length (sizeof_long a)), []⟩
      = R at hr hret2 hout
  refine ⟨S.mem, S.pokes, R.peeks, ?_, ?_⟩
  · rw [hw, hret]
  · rw [hr, hret2, hout, hmem]
    rw [load_store_bytes a mem base data.length copy (by omega) (by omega), htake]

/-- The round trip of a 3-byte payload on amd64, one trap byte, all requests
succeeding. -/
theorem write_read_roundtrip_witness :
    ∃ mem2 pokes peeks,
      ptrace_write .amd64 [204] 1 (fun _ => 0) (fun _ => true) 5 (fun _ => 0) 1 4194304
        [72, 49, 192] = .returned (0, mem2, pokes)
      ∧ ptrace_read .amd64 (fun _ => 0) (fun _ => true) 5 mem2 1 4194304
        [72, 49, 192].length = .returned (0, [72, 49, 192], peeks) :=
  write_read_roundtrip .amd64 [204] 1 (fun _ => 0) (fun _ => 0) (fun _ => true)
    (fun _ => true) 5 (fun _ => 0) 1 4194304 [72, 49, 192] (by decide) (by decide)
    (by decide) (fun _ _ => rfl) (fun _ _ => rfl)

/-- C2 (failing input): on amd64 a payload of `2^35` bytes needs `2^32 + 1` words.
The counter `unsigned i` of line 97 wraps to 0 before it reaches that count:
`ptrace_write` never returns on it although every poke succeeds, and however
often the loop body runs, the first byte after the payload, at `base + L`, is
never written: it never holds the trap byte `0xcc`. -/
theorem trap_tail_never_written_on_2pow35 :
    (¬ ∃ fuel r, ptrace_write .amd64 [204] 1 (fun _ => 0) (fun _ => true) fuel (fun _ => 0)
        7 4096 (List.replicate 34359738368 0) = .returned r)
    ∧ ¬ ∃ copy k, ((write_body .amd64 (fun _ => true) 7 4096 copy)^[k]
        ⟨0, 0, fun _ => 0, []⟩).mem (4096 + 34359738368) = 204 := by
  constructor
  · rintro ⟨fuel, r, h⟩
    rw [ptrace_write_unfinished .amd64 [204] 1 (fun _ => 0) (fun _ => true) fuel (fun _ => 0)
      7 4096 (List.replicate 34359738368 0)
      (by rw [List.length_replicate]; simp [sizeof_long, ULONG_MOD])
      (by rw [List.length_replicate]; simp [sizeof_long, UINT_MOD])] at h
    cases h
  · rintro ⟨copy, k, h⟩
    rw [write_iter_untouched (fun _ => true) 7 4096 copy (4096 + 34359738368) (by omega)
      (by omega) k ⟨0, 0, fun _ => 0, []⟩ (by simp [UINT_MOD])] at h
    simp at h

/-- Trap tail within the range of the loop counter: when the size computation
does not wrap (`L + TRAP_SZ + sizeof(long) ≤ 2^w`) and the payload needs fewer
than `2^32` words, a `ptrace_write` of `L` bytes at `base` whose pokes all succeed returns 0
and leaves, at every offset `j` of `[L, ROUNDUP(L + TRAP_SZ, sizeof(long)))`, byte
`j mod TRAP_SZ` of the trap pattern at tracee address `base + j` (the scratch
buffer is pre-filled with the pattern from its start, only its first `L` bytes
are overwritten); this range holds at least `TRAP_SZ` bytes, whether or not `L`
is a multiple of the word size. -/
theorem write_trap_tail (a : Arch) (TRAP : List Nat) (TRAP_SZ : Nat)
    (junk : Nat → Nat) (poke_ok : Nat → Bool) (fuel : Nat) (mem : Memory)
    (pid : Int) (base : Nat) (data : List Nat)
    (hsz : data.length + TRAP_SZ + sizeof_long a ≤ ULONG_MOD a)
    (hcnt : ROUNDUP a (data.length + TRAP_SZ) (sizeof_long a) / sizeof_long a < UINT_MOD)
    (hf : ROUNDUP a (data.length + TRAP_SZ) (sizeof_long a) / sizeof_long a < fuel)
    (hpoke : ∀ k, k < ROUNDUP a (data.length + TRAP_SZ) (sizeof_long a) / sizeof_long a →
      poke_ok k = true) :
    ∃ mem2 pokes,
      ptrace_write a TRAP TRAP_SZ junk poke_ok fuel mem pid base data
        = .returned (0, mem2, pokes)
      ∧ (∀ j, data.length ≤ j → j < ROUNDUP a (data.length + TRAP_SZ) (sizeof_long a) →
          mem2 ((base + j) % ULONG_MOD a) = TRAP.getD (j % TRAP_SZ) 0)
      ∧ data.length + TRAP_SZ ≤ ROUNDUP a (data.length + TRAP_SZ) (sizeof_long a) := by
  have hm := sizeof_long_pos a
  obtain ⟨f1, f2, f3, f4⟩ := ROUNDUP_facts a (data.length + TRAP_SZ) hsz
  rw [f1] at hcnt hf hpoke
  obtain ⟨copy, hlen, _, htail, hw⟩ := ptrace_write_returns a TRAP TRAP_SZ junk poke_ok fuel
    mem pid base data hsz hcnt hf
  have hret := write_iter_ret_ok a poke_ok pid base copy
    ((data.length + TRAP_SZ + sizeof_long a - 1) / sizeof_long a) ⟨0, 0, mem, []⟩
    (by intro k hk; simpa using hpoke k hk)
  have hmem := write_iter_mem a poke_ok pid base copy
    ((data.length + TRAP_SZ + sizeof_long a - 1) / sizeof_long a) ⟨0, 0, mem, []⟩
    (by intro k hk; simpa using hpoke k hk) (by simpa using hcnt)
    (by simp only [Nat.zero_add]; omega)
  simp only [Nat.zero_mul, Nat.add_zero, List.drop_zero] at hmem
  rw [List.take_of_length_le (by omega)] at hmem
  generalize (write_body a poke_ok pid base copy)^[(data.length + TRAP_SZ + sizeof_long a - 1)
      / sizeof_long a] ⟨0, 0, mem, []⟩ = S at hw hret hmem
  refine ⟨S.mem, S.pokes, ?_, ?_, f3⟩
  · rw [hw, hret]
  · intro j hj1 hj2
    rw [hmem, store_bytes_at a mem base j copy (by omega) (by omega)]
    exact htail j hj1 (by omega)

/-- The trap tail of a payload of exactly one word (8 bytes) on amd64 with the
one-byte trap `0xcc`: offsets 8 to 15 hold the trap byte. -/
theorem write_trap_tail_witness :
    ∃ mem2 pokes,
      ptrace_write .amd64 [204] 1 (fun _ => 0) (fun _ => true) 5 (fun _ => 0) 1 4194304
        [144, 144, 144, 144, 144, 144, 144, 144] = .returned (0, mem2, pokes)
      ∧ (∀ j, [144, 144, 144, 144, 144, 144, 144, 144].length ≤ j →
          j < ROUNDUP .amd64 ([144, 144, 144, 144, 144, 144, 144, 144].length + 1)
            (sizeof_long .amd64) →
          mem2 ((4194304 + j) % ULONG_MOD .amd64) = [204].getD (j % 1) 0)
      ∧ [144, 144, 144, 144, 144, 144, 144, 144].length + 1
          ≤ ROUNDUP .amd64 ([144, 144, 144, 144, 144, 144, 144, 144].length + 1)
            (sizeof_long .amd64) :=
  write_trap_tail .amd64 [204] 1 (fun _ => 0) (fun _ => true) 5 (fun _ => 0) 1 4194304
    [144, 144, 144, 144, 144, 144, 144, 144] (by decide) (by decide) (by decide)
    (fun _ _ => rfl)

/-- C6 (failing input): on amd64 a read of `2^35` bytes needs `2^32` words and a
write of `2^35 - 8` bytes as many; the counters `unsigned i` of lines 147 and 97
wrap to 0 before they reach that count, so neither `ptrace_read` nor
`ptrace_write` returns, and none returns 0 although every word succeeds. -/
theorem read_never_returns_on_2pow35 :
    (¬ ∃ fuel r, ptrace_read .amd64 (fun _ => 0) (fun _ => true) fuel (fun _ => 0)
        1 4194304 34359738368 = .returned r)
    ∧ ¬ ∃ fuel r, ptrace_write .amd64 [204] 1 (fun _ => 0) (fun _ => true) fuel (fun _ => 0)
        1 4194304 (List.replicate 34359738360 144) = .returned r := by
  constructor
  · rintro ⟨fuel, r, h⟩
    rw [ptrace_read_unfinished .amd64 (fun _ => 0) (fun _ => true) fuel (fun _ => 0)
      1 4194304 34359738368 (by simp [sizeof_long, ULONG_MOD])
      (by simp [sizeof_long, UINT_MOD])] at h
    cases h
  · rintro ⟨fuel, r, h⟩
    rw [ptrace_write_unfinished .amd64 [204] 1 (fun _ => 0) (fun _ => true) fuel (fun _ => 0)
      1 4194304 (List.replicate 34359738360 144)
      (by rw [List.length_replicate]; simp [sizeof_long, ULONG_MOD])
      (by rw [List.length_replicate]; simp [sizeof_long, UINT_MOD])] at h
    cases h

/-- Aggregate failure within the range of the loop counter: when the size
computations do not wrap and fewer than `2^32` words are needed, then for every outcome pattern of the per-word requests
`ptrace_write` issues one poke for each of the `ROUNDUP(L + TRAP_SZ, m) / m` words,
at the addresses `base + i*m` (in `unsigned long`), and `ptrace_read` one peek for
each of the `ROUNDUP(L, m) / m` words, a failed word not stopping the loop; each
returns 0 exactly when every word succeeded and -1 exactly when some word failed. -/
theorem transfer_aggregate_failure (a : Arch) (TRAP : List Nat) (TRAP_SZ : Nat)
    (junk : Nat → Nat) (poke_ok peek_ok : Nat → Bool) (fuel : Nat) (mem : Memory)
    (pid : Int) (base : Nat) (data : List Nat) (out_sz : Nat)
    (hsz : data.length + TRAP_SZ + sizeof_long a ≤ ULONG_MOD a)
    (hcnt : ROUNDUP a (data.length + TRAP_SZ) (sizeof_long a) / sizeof_long a < UINT_MOD)
    (hf : ROUNDUP a (data.length + TRAP_SZ) (sizeof_long a) / sizeof_long a < fuel)
    (hsz2 : out_sz + sizeof_long a ≤ ULONG_MOD a)
    (hcnt2 : ROUNDUP a out_sz (sizeof_long a) / sizeof_long a < UINT_MOD)
    (hf2 : ROUNDUP a out_sz (sizeof_long a) / sizeof_long a < fuel) :
    (∃ ret mem2 pokes,
      ptrace_write a TRAP TRAP_SZ junk poke_ok fuel mem pid base data
        = .returned (ret, mem2, pokes)
      ∧ pokes.map (fun p => p.addr)
        = (List.range (ROUNDUP a (data.length + TRAP_SZ) (sizeof_long a) / sizeof_long a)).map
            (fun i => (base + i * sizeof_long a) % ULONG_MOD a)
      ∧ (ret = 0 ↔ ∀ i, i < ROUNDUP a (data.length + TRAP_SZ) (sizeof_long a) / sizeof_long a →
          poke_ok i = true)
      ∧ (ret = -1 ↔ ∃ i, i < ROUNDUP a (data.length + TRAP_SZ) (sizeof_long a)
          / sizeof_long a ∧ poke_ok i = false))
    ∧ (∃ ret out peeks,
      ptrace_read a junk peek_ok fuel mem pid base out_sz = .returned (ret, out, peeks)
      ∧ peeks.map (fun p => p.addr)
        = (List.range (ROUNDUP a out_sz (sizeof_long a) / sizeof_long a)).map
            (fun i => (base + i * sizeof_long a) % ULONG_MOD a)
      ∧ (ret = 0 ↔ ∀ i, i < ROUNDUP a out_sz (sizeof_long a) / sizeof_long a →
          peek_ok i = true)
      ∧ (ret = -1 ↔ ∃ i, i < ROUNDUP a out_sz (sizeof_long a) / sizeof_long a
          ∧ peek_ok i = false)) := by
  obtain ⟨f1, _, _, _⟩ := ROUNDUP_facts a (data.length + TRAP_SZ) hsz
  obtain ⟨g1, _, _, _⟩ := ROUNDUP_facts a out_sz hsz2
  rw [f1] at hcnt hf ⊢
  rw [g1] at hcnt2 hf2 ⊢
  constructor
  · obtain ⟨copy, _, _, _, hw⟩ := ptrace_write_returns a TRAP TRAP_SZ junk poke_ok fuel
      mem pid base data hsz hcnt hf
    exact ⟨_, _, _, hw, write_iter_summary a poke_ok pid base copy mem _ hcnt⟩
  · exact ⟨_, _, _, ptrace_read_returns a junk peek_ok fuel mem pid base out_sz hsz2 hcnt2 hf2,
      read_iter_summary a peek_ok mem pid base _ _ hcnt2⟩

/-- The aggregate failure of an 11-byte write whose second poke fails and of a
5-byte read whose two peeks fail, on i386. -/
theorem transfer_aggregate_failure_witness :
    (∃ ret mem2 pokes,
      ptrace_write .i386 [204] 1 (fun _ => 0) (fun k => k != 1) 9 (fun _ => 0) 1 4194304
        [1, 2, 3, 4, 5, 6, 7, 8, 9, 10, 11] = .returned (ret, mem2, pokes)
      ∧ pokes.map (fun p => p.addr)
        = (List.range (ROUNDUP .i386 ([1, 2, 3, 4, 5, 6, 7, 8, 9, 10, 11].length + 1)
            (sizeof_long .i386) / sizeof_long .i386)).map
            (fun i => (4194304 + i * sizeof_long .i386) % ULONG_MOD .i386)
      ∧ (ret = 0 ↔ ∀ i, i < ROUNDUP .i386 ([1, 2, 3, 4, 5, 6, 7, 8, 9, 10, 11].length + 1)
          (sizeof_long .i386) / sizeof_long .i386 → (fun k => k != 1) i = true)
      ∧ (ret = -1 ↔ ∃ i, i < ROUNDUP .i386 ([1, 2, 3, 4, 5, 6, 7, 8, 9, 10, 11].length + 1)
          (sizeof_long .i386) / sizeof_long .i386 ∧ (fun k => k != 1) i = false))
    ∧ (∃ ret out peeks,
      ptrace_read .i386 (fun _ => 0) (fun _ => false) 9 (fun _ => 0) 1 4194304 5
        = .returned (ret, out, peeks)
      ∧ peeks.map (fun p => p.addr)
        = (List.range (ROUNDUP .i386 5 (sizeof_long .i386) / sizeof_long .i386)).map
            (fun i => (4194304 + i * sizeof_long .i386) % ULONG_MOD .i386)
      ∧ (ret = 0 ↔ ∀ i, i < ROUNDUP .i386 5 (sizeof_long .i386) / sizeof_long .i386 →
          (fun _ => false) i = true)
      ∧ (ret = -1 ↔ ∃ i, i < ROUNDUP .i386 5 (sizeof_long .i386) / sizeof_long .i386
          ∧ (fun _ => false) i = false)) :=
  transfer_aggregate_failure .i386 [204] 1 (fun _ => 0) (fun k => k != 1) (fun _ => false) 9
    (fun _ => 0) 1 4194304 [1, 2, 3, 4, 5, 6, 7, 8, 9, 10, 11] 5 (by decide) (by decide)
    (by decide) (by decide) (by decide) (by decide)

/-! ## Claims about the execution controller -/

/-- C9: every `_collect_regs` call whose register requests succeed copies the
current general-purpose and floating-point registers into the previous slots,
stores the fetched ones as current and resets `sig` and `exit_code` to -1; so
after two consecutive calls to which the kernel hands out the same registers, the
previous registers are those held after the first call and the current registers
are the same as after the first call. -/
theorem collect_regs_rotation (a : Arch) (k : Kernel) (pid : Int) (info : proc_info_t)
    (r f x : Regs) (hr : k.getregset_prstatus = some r) (hf : k.getregset_fpregset = some f)
    (hx : a = .i386 → k.getregset_prxfpreg = some x) :
    ∃ info1 log1 info2 log2,
      _collect_regs a k pid info = some (info1, log1)
      ∧ _collect_regs a k pid info1 = some (info2, log2)
      ∧ info1.old_regs_struct = info.regs_struct
      ∧ info1.old_fpregs_struct = info.fpregs_struct
      ∧ info1.regs_struct = r ∧ info1.fpregs_struct = f
      ∧ info1.sig = -1 ∧ info1.exit_code = -1
      ∧ info2.old_regs_struct = info1.regs_struct
      ∧ info2.old_fpregs_struct = info1.fpregs_struct
      ∧ info2.regs_struct = info1.regs_struct
      ∧ info2.fpregs_struct = info1.fpregs_struct
      ∧ info2.sig = -1 ∧ info2.exit_code = -1 := by
  refine ⟨_, _, _, _, collect_regs_eq a k pid info r f x hr hf hx,
    collect_regs_eq a k pid _ r f x hr hf hx, ?_⟩
  simp

/-- C9 (witness): two snapshots on i386 of a tracee that did not run. -/
theorem collect_regs_rotation_witness :
    ∃ info1 log1 info2 log2,
      _collect_regs .i386 (kernel_ok 1407 [1, 2] [3] [4] 5 0) 9
        { fresh_info 9 with regs_struct := [7, 7], fpregs_struct := [8], sig := 5 }
        = some (info1, log1)
      ∧ _collect_regs .i386 (kernel_ok 1407 [1, 2] [3] [4] 5 0) 9 info1 = some (info2, log2)
      ∧ info1.old_regs_struct
          = ({ fresh_info 9 with regs_struct := [7, 7], fpregs_struct := [8], sig := 5 }
              : proc_info_t).regs_struct
      ∧ info1.old_fpregs_struct
          = ({ fresh_info 9 with regs_struct := [7, 7], fpregs_struct := [8], sig := 5 }
              : proc_info_t).fpregs_struct
      ∧ info1.regs_struct = [1, 2] ∧ info1.fpregs_struct = [3]
      ∧ info1.sig = -1 ∧ info1.exit_code = -1
      ∧ info2.old_regs_struct = info1.regs_struct
      ∧ info2.old_fpregs_struct = info1.fpregs_struct
      ∧ info2.regs_struct = info1.regs_struct
      ∧ info2.fpregs_struct = info1.fpregs_struct
      ∧ info2.sig = -1 ∧ info2.exit_code = -1 :=
  collect_regs_rotation .i386 (kernel_ok 1407 [1, 2] [3] [4] 5 0) 9
    { fresh_info 9 with regs_struct := [7, 7], fpregs_struct := [8], sig := 5 }
    [1, 2] [3] [4] rfl rfl (fun _ => rfl)

/-- C10: when the wait status is a plain exit (`WIFEXITED`) or a termination by a
signal (`WIFSIGNALED`), `ptrace_reap` returns 1, leaves every field of `info`
unchanged and issues no request besides the wait (no register rotation or fetch;
the exit status and the signal are not stored). -/
theorem reap_exit_keeps_info (a : Arch) (passsig : Bool) (k : Kernel) (pid : Int)
    (info : proc_info_t) (status : Int) (hw : k.waitpid = some status)
    (h : WIFEXITED status = true ∨ WIFSIGNALED status = true) :
    ptrace_reap a passsig k pid info = some (1, info, [Request.waitpid pid status]) := by
  unfold ptrace_reap
  rw [hw]
  rcases h with h | h
  · simp [h]
  · simp [h]

/-- C10 (witness): a tracee killed by `SIGSEGV` (status `0x8b`), with `sig` and
`exit_code` holding earlier values. -/
theorem reap_exit_keeps_info_witness :
    ptrace_reap .amd64 true (kernel_ok 139 [1] [2] [3] 5 0) 9
        { fresh_info 9 with regs_struct := [7], sig := 5, exit_code := 3 }
      = some (1, { fresh_info 9 with regs_struct := [7], sig := 5, exit_code := 3 },
          [Request.waitpid 9 139]) :=
  reap_exit_keeps_info .amd64 true (kernel_ok 139 [1] [2] [3] 5 0) 9
    { fresh_info 9 with regs_struct := [7], sig := 5, exit_code := 3 } 139 rfl
    (Or.inr (by decide))

/-- C8 (counterexample): `ptrace_detatch` on an `info` whose `sig` is 5 (set by an
earlier exit-event snapshot), the tracee then exiting with code 7: `exit_code`
becomes 7 but `sig` is still 5, not the sentinel -1. -/
theorem detach_leaves_stale_sig :
    ptrace_detatch (kernel_ok 1792 [] [] [] 0 0) 9 { fresh_info 9 with sig := 5 }
      = some ({ fresh_info 9 with sig := 5, exit_code := 7 },
          [Request.detach 9, Request.waitpid 9 1792])
    ∧ WIFEXITED 1792 = true ∧ WEXITSTATUS 1792 = 7
    ∧ ({ fresh_info 9 with sig := 5, exit_code := 7 } : proc_info_t).sig ≠ -1 := by
  decide

/-- C8 (amended): for every `info`, after a `ptrace_detatch` whose requests succeed:
if the wait reports a normal exit, `exit_code` is the exit code and `sig` keeps
the value it had before the call (so the sentinel -1 if it held it); if the wait
reports termination by a signal, `sig` is that signal and `exit_code` keeps the
value it had before the call; one call never writes both fields, and `pid` and
the register fields are unchanged. -/
theorem detach_records_status (k : Kernel) (pid : Int) (info : proc_info_t) (status : Int)
    (hd : k.detach = true) (hw : k.waitpid = some status) :
    ∃ info2 log, ptrace_detatch k pid info = some (info2, log)
      ∧ (WIFEXITED status = true →
          info2.exit_code = WEXITSTATUS status ∧ info2.sig = info.sig
          ∧ (info.sig = -1 → info2.sig = -1))
      ∧ (WIFSIGNALED status = true →
          info2.sig = WTERMSIG status ∧ info2.exit_code = info.exit_code
          ∧ (info.exit_code = -1 → info2.exit_code = -1))
      ∧ (info2.exit_code = info.exit_code ∨ info2.sig = info.sig)
      ∧ info2.pid = info.pid
      ∧ info2.regs_struct = info.regs_struct
      ∧ info2.old_regs_struct = info.old_regs_struct
      ∧ info2.fpregs_struct = info.fpregs_struct
      ∧ info2.old_fpregs_struct = info.old_fpregs_struct
      ∧ info2.fpxregs_struct = info.fpxregs_struct
      ∧ info2.old_fpxregs_struct = info.old_fpxregs_struct := by
  have hne := not_exited_and_signaled status
  refine ⟨_, _, by simp [ptrace_detatch, REQUIRE, hd, hw]; exact ⟨rfl, rfl⟩, ?_⟩
  by_cases h1 : WIFEXITED status = true <;> by_cases h2 : WIFSIGNALED status = true
  · exact absurd ⟨h1, h2⟩ hne
  · simp [h1, h2]
  · simp [h1, h2]
  · simp [h1, h2]

/-- C8 (witness): a tracee killed by signal 11 (status `0x8b`) after the detach. -/
theorem detach_records_status_witness :
    ∃ info2 log, ptrace_detatch (kernel_ok 139 [] [] [] 0 0) 9 (fresh_info 9) = some (info2, log)
      ∧ (WIFEXITED 139 = true →
          info2.exit_code = WEXITSTATUS 139 ∧ info2.sig = (fresh_info 9).sig
          ∧ ((fresh_info 9).sig = -1 → info2.sig = -1))
      ∧ (WIFSIGNALED 139 = true →
          info2.sig = WTERMSIG 139 ∧ info2.exit_code = (fresh_info 9).exit_code
          ∧ ((fresh_info 9).exit_code = -1 → info2.exit_code = -1))
      ∧ (info2.exit_code = (fresh_info 9).exit_code ∨ info2.sig = (fresh_info 9).sig)
      ∧ info2.pid = (fresh_info 9).pid
      ∧ info2.regs_struct = (fresh_info 9).regs_struct
      ∧ info2.old_regs_struct = (fresh_info 9).old_regs_struct
      ∧ info2.fpregs_struct = (fresh_info 9).fpregs_struct
      ∧ info2.old_fpregs_struct = (fresh_info 9).old_fpregs_struct
      ∧ info2.fpxregs_struct = (fresh_info 9).fpxregs_struct
      ∧ info2.old_fpxregs_struct = (fresh_info 9).old_fpxregs_struct :=
  detach_records_status (kernel_ok 139 [] [] [] 0 0) 9 (fresh_info 9) 139 rfl rfl

/-- C5 (failing input): `ptrace_launch` on a tracee without options, the wait and
both `PTRACE_SETOPTIONS` requests succeeding: the second request replaces the
option set of the first, so the tracee ends with `PTRACE_O_TRACEEXIT` alone and
`PTRACE_O_EXITKILL` is not installed; and so it is after every `ptrace_launch`
that returns. -/
theorem launch_drops_exitkill :
    ptrace_launch (kernel_ok 1407 [] [] [] 0 0) 1234 0
      = some (PTRACE_O_TRACEEXIT, [Request.waitpid 1234 1407,
          Request.setoptions 1234 PTRACE_O_EXITKILL,
          Request.setoptions 1234 PTRACE_O_TRACEEXIT])
    ∧ has_option PTRACE_O_TRACEEXIT PTRACE_O_TRACEEXIT = true
    ∧ has_option PTRACE_O_TRACEEXIT PTRACE_O_EXITKILL = false
    ∧ ∀ (k : Kernel) (pid : Int) (opts opts2 : Nat) (log : List Request),
        ptrace_launch k pid opts = some (opts2, log) →
        opts2 = PTRACE_O_TRACEEXIT ∧ has_option opts2 PTRACE_O_EXITKILL = false := by
  refine ⟨by decide, by decide, by decide, ?_⟩
  intro k pid opts opts2 log h
  have h2 := launch_options_replaced k pid opts (opts2, log) h
  simp only at h2
  rw [h2]
  exact ⟨rfl, by decide⟩

/-- C4: with every request of the call succeeding, the return value of
`ptrace_reap` is a function of the wait status alone: 1 for a status that encodes
a normal exit, 1 for one that encodes termination by a signal, 1 for one whose
`status>>8` is `SIGTRAP | (PTRACE_EVENT_EXIT<<8)` (and then, the status being
neither an exit nor a termination, `info` comes from the exit-aware register
collection); 0 for a stop whose `status>>8` is `SIGTRAP`, with a plain snapshot,
and 0 for a stop on any other signal; the value is the same for every pid, prior
`info` and forwarding flag. -/
theorem reap_classifies_status (a : Arch) (passsig : Bool) (k : Kernel) (pid : Int)
    (info : proc_info_t) (status : Int) (r f x : Regs) (sg msg : Int)
    (hw : k.waitpid = some status)
    (hr : k.getregset_prstatus = some r) (hf : k.getregset_fpregset = some f)
    (hx : a = .i386 → k.getregset_prxfpreg = some x)
    (hs : k.getsiginfo = some sg) (he : k.geteventmsg = some msg) (hc : k.cont = true) :
    (WIFEXITED status = true → (ptrace_reap a passsig k pid info).map Prod.fst = some 1)
    ∧ (WIFSIGNALED status = true → (ptrace_reap a passsig k pid info).map Prod.fst = some 1)
    ∧ (status / (256 : Int) = Int.ofNat (SIGTRAP ||| (PTRACE_EVENT_EXIT <<< 8)) →
        (ptrace_reap a passsig k pid info).map Prod.fst = some 1)
    ∧ (status / (256 : Int) = Int.ofNat (SIGTRAP ||| (PTRACE_EVENT_EXIT <<< 8)) →
        WIFEXITED status = false → WIFSIGNALED status = false →
        ∃ info1 log1, _exited_collect_regs a k pid info = some (info1, log1)
          ∧ info1.sig = sg ∧ info1.exit_code = msg
          ∧ ptrace_reap a passsig k pid info
            = some (1, info1, Request.waitpid pid status :: log1))
    ∧ (WIFSTOPPED status = true → status / (256 : Int) = Int.ofNat SIGTRAP →
        ∃ info1 log1, _collect_regs a k pid info = some (info1, log1)
          ∧ ptrace_reap a passsig k pid info
            = some (0, info1, Request.waitpid pid status :: log1))
    ∧ (WIFSTOPPED status = true → status / (256 : Int) ≠ Int.ofNat SIGTRAP →
        status / (256 : Int) ≠ Int.ofNat (SIGTRAP ||| (PTRACE_EVENT_EXIT <<< 8)) →
        (ptrace_reap a passsig k pid info).map Prod.fst = some 0)
    ∧ (∀ passsig2 pid2 info2, (ptrace_reap a passsig2 k pid2 info2).map Prod.fst
        = (ptrace_reap a passsig k pid info).map Prod.fst) := by
  have hret := fun p q i => reap_ret_eq a p k q i status r f x sg msg hw hr hf hx hs he hc
  refine ⟨?_, ?_, ?_, ?_, ?_, ?_, ?_⟩
  · intro h
    rw [hret, if_pos (Or.inl h)]
  · intro h
    rw [hret, if_pos (Or.inr (Or.inl h))]
  · intro h
    rw [hret, if_pos (Or.inr (Or.inr h))]
  · intro h h1 h2
    refine ⟨_, _, exited_collect_regs_eq a k pid info r f x sg msg hr hf hx hs he, rfl, rfl, ?_⟩
    unfold ptrace_reap
    rw [hw]
    simp only [exited_collect_regs_eq a k pid info r f x sg msg hr hf hx hs he]
    rw [if_neg (by simp [h1]), if_neg (by simp [h2]), if_pos h]
  · intro h h5
    obtain ⟨h1, h2⟩ := stopped_not_exited status h
    have h3 : status / (256 : Int) ≠ Int.ofNat (SIGTRAP ||| (PTRACE_EVENT_EXIT <<< 8)) := by
      rw [h5, SIGTRAP_EVENT_EXIT, SIGTRAP_val]
      decide
    refine ⟨_, _, collect_regs_eq a k pid info r f x hr hf hx, ?_⟩
    unfold ptrace_reap
    rw [hw]
    simp only [collect_regs_eq a k pid info r f x hr hf hx]
    rw [if_neg (by simp [h1]), if_neg (by simp [h2]), if_neg h3, if_pos h5]
  · intro h h5 h3
    obtain ⟨h1, h2⟩ := stopped_not_exited status h
    rw [hret, if_neg]
    rintro (h6 | h6 | h6)
    · rw [h1] at h6
      cases h6
    · rw [h2] at h6
      cases h6
    · exact h3 h6
  · intro p q i
    rw [hret, hret]

/-- C4 (witness): the exit-event stop `0x6057f` on amd64 with the forwarding flag on. -/
theorem reap_classifies_status_witness :
    (WIFEXITED 394623 = true →
      (ptrace_reap .amd64 true (kernel_ok 394623 [1] [2] [3] 5 42) 9 (fresh_info 9)).map
        Prod.fst = some 1)
    ∧ (WIFSIGNALED 394623 = true →
      (ptrace_reap .amd64 true (kernel_ok 394623 [1] [2] [3] 5 42) 9 (fresh_info 9)).map
        Prod.fst = some 1)
    ∧ ((394623 : Int) / (256 : Int) = Int.ofNat (SIGTRAP ||| (PTRACE_EVENT_EXIT <<< 8)) →
      (ptrace_reap .amd64 true (kernel_ok 394623 [1] [2] [3] 5 42) 9 (fresh_info 9)).map
        Prod.fst = some 1)
    ∧ ((394623 : Int) / (256 : Int) = Int.ofNat (SIGTRAP ||| (PTRACE_EVENT_EXIT <<< 8)) →
        WIFEXITED 394623 = false → WIFSIGNALED 394623 = false →
        ∃ info1 log1,
          _exited_collect_regs .amd64 (kernel_ok 394623 [1] [2] [3] 5 42) 9 (fresh_info 9)
            = some (info1, log1)
          ∧ info1.sig = 5 ∧ info1.exit_code = 42
          ∧ ptrace_reap .amd64 true (kernel_ok 394623 [1] [2] [3] 5 42) 9 (fresh_info 9)
            = some (1, info1, Request.waitpid 9 394623 :: log1))
    ∧ (WIFSTOPPED 394623 = true → (394623 : Int) / (256 : Int) = Int.ofNat SIGTRAP →
        ∃ info1 log1,
          _collect_regs .amd64 (kernel_ok 394623 [1] [2] [3] 5 42) 9 (fresh_info 9)
            = some (info1, log1)
          ∧ ptrace_reap .amd64 true (kernel_ok 394623 [1] [2] [3] 5 42) 9 (fresh_info 9)
            = some (0, info1, Request.waitpid 9 394623 :: log1))
    ∧ (WIFSTOPPED 394623 = true → (394623 : Int) / (256 : Int) ≠ Int.ofNat SIGTRAP →
        (394623 : Int) / (256 : Int) ≠ Int.ofNat (SIGTRAP ||| (PTRACE_EVENT_EXIT <<< 8)) →
        (ptrace_reap .amd64 true (kernel_ok 394623 [1] [2] [3] 5 42) 9 (fresh_info 9)).map
          Prod.fst = some 0)
    ∧ (∀ passsig2 pid2 info2,
        (ptrace_reap .amd64 passsig2 (kernel_ok 394623 [1] [2] [3] 5 42) pid2 info2).map
          Prod.fst
        = (ptrace_reap .amd64 true (kernel_ok 394623 [1] [2] [3] 5 42) 9 (fresh_info 9)).map
          Prod.fst) :=
  reap_classifies_status .amd64 true (kernel_ok 394623 [1] [2] [3] 5 42) 9 (fresh_info 9)
    394623 [1] [2] [3] 5 42 rfl rfl rfl (fun _ => rfl) rfl rfl rfl

/-- C7 (counterexample): forwarding flag on, the tracee stopped by `SIGUSR1`
(status `0x0a7f`): `ptrace_reap` returns 0 after a continue request with signal
10, so the tracee is left running; and in a session of two rounds whose first stop
is that one, the second `ptrace_cont` acts on a running tracee and two continue
requests lie between the two waits. -/
theorem reap_forwarding_leaves_running :
    (∃ info1, ptrace_reap .amd64 true (kernel_ok 2687 [1] [2] [3] 10 0) 9 (fresh_info 9)
      = some (0, info1, [Request.waitpid 9 2687, Request.getregset 9 NT_PRSTATUS,
          Request.getregset 9 NT_FPREGSET, Request.cont 9 10]))
    ∧ tracee_after_all .Stopped [Request.waitpid 9 2687, Request.getregset 9 NT_PRSTATUS,
          Request.getregset 9 NT_FPREGSET, Request.cont 9 10] = .Running
    ∧ (session .amd64 true 9
        [(kernel_ok 0 [1] [2] [3] 0 0, kernel_ok 2687 [4] [5] [6] 10 0),
         (kernel_ok 0 [4] [5] [6] 0 0, kernel_ok 1407 [7] [8] [9] 5 0)] (fresh_info 9)).map
        (fun r => (acts_on_stopped .Stopped r.2, conts_between_waits none r.2))
      = some (false, [2]) := by
  refine ⟨⟨_, rfl⟩, ?_, ?_⟩ <;> decide

/-- C7 (amended): when `ptrace_reap` returns 0 and the forwarding flag is off or
the stop is a plain `SIGTRAP` stop, it has issued no continue request and the
tracee is left stopped; with the flag on and any other stopping signal its last
request is a continue request with that signal and the tracee is left running.
In every session that alternates `ptrace_cont` and `ptrace_reap` with the flag
off and all requests succeeding, every register snapshot and every continue
request acts on a stopped tracee and exactly one continue request lies between
two consecutive waits. -/
theorem reap_leaves_stopped (a : Arch) (passsig : Bool) (k : Kernel) (pid : Int)
    (info info1 : proc_info_t) (status : Int) (log : List Request)
    (ks : List (Kernel × Kernel)) (info0 : proc_info_t)
    (hw : k.waitpid = some status)
    (hret : ptrace_reap a passsig k pid info = some (0, info1, log))
    (hks : ∀ p ∈ ks, answers_all p.1 = true ∧ answers_all p.2 = true) :
    ((passsig = false ∨ status / (256 : Int) = Int.ofNat SIGTRAP) →
      log = Request.waitpid pid status :: collect_log a pid
      ∧ (∀ r ∈ log, ∀ p s, r ≠ Request.cont p s)
      ∧ ∀ s0, tracee_after_all s0 log = .Stopped)
    ∧ (passsig = true → status / (256 : Int) ≠ Int.ofNat SIGTRAP →
      log = Request.waitpid pid status :: collect_log a pid
          ++ [Request.cont pid (WSTOPSIG status)]
      ∧ ∀ s0, tracee_after_all s0 log = .Running)
    ∧ ∃ info2 slog, session a false pid ks info0 = some (info2, slog)
      ∧ acts_on_stopped .Stopped slog = true
      ∧ ∀ n ∈ conts_between_waits none slog, n = 1 := by
  refine ⟨?_, ?_, session_alternates a pid ks info0 hks none (Or.inl rfl)⟩
  · intro hcase
    obtain ⟨hlog, hne⟩ := reap_zero_log a passsig k pid info info1 status log hw hret
    obtain ⟨hs1, hs2⟩ := hne
    have hl : log = Request.waitpid pid status :: collect_log a pid := by
      rcases hlog with h | ⟨hp, h4, h⟩
      · exact h
      · rcases hcase with h5 | h5
        · rw [hp] at h5
          cases h5
        · exact absurd h5 h4
    refine ⟨hl, ?_, ?_⟩
    · intro r hr p s hrs
      rw [hl] at hr
      rcases List.mem_cons.mp hr with h | h
      · rw [hrs] at h
        cases h
      · have := collect_log_quiet a pid r h
        rw [hrs] at this
        simp [is_quiet] at this
    · intro s0
      rw [hl]
      unfold tracee_after_all
      rw [List.foldl_cons]
      have := tracee_after_all_quiet (tracee_after s0 (Request.waitpid pid status))
        (collect_log a pid) (collect_log_quiet a pid)
      unfold tracee_after_all at this
      rw [this]
      simp [tracee_after, hs1, hs2]
  · intro hp h4
    obtain ⟨hlog, _⟩ := reap_zero_log a passsig k pid info info1 status log hw hret
    have hl : log = Request.waitpid pid status :: collect_log a pid
        ++ [Request.cont pid (WSTOPSIG status)] := by
      rcases hlog with h | ⟨_, _, h⟩
      · exfalso
        exact reap_zero_forwarded a k pid info info1 status log hw (by rw [← hp]; exact hret)
          h4 h
      · exact h
    refine ⟨hl, ?_⟩
    intro s0
    rw [hl]
    unfold tracee_after_all
    rw [List.foldl_append]
    simp [tracee_after]

/-- C7 (witness): a plain `SIGTRAP` stop (status `0x057f`) with the forwarding flag
off, and a session of two rounds ending in an exit-event stop. -/
theorem reap_leaves_stopped_witness :
    ((false = false ∨ (1407 : Int) / (256 : Int) = Int.ofNat SIGTRAP) →
      [Request.waitpid 9 1407, Request.getregset 9 NT_PRSTATUS,
          Request.getregset 9 NT_FPREGSET]
        = Request.waitpid 9 1407 :: collect_log .amd64 9
      ∧ (∀ r ∈ [Request.waitpid 9 1407, Request.getregset 9 NT_PRSTATUS,
          Request.getregset 9 NT_FPREGSET], ∀ p s, r ≠ Request.cont p s)
      ∧ ∀ s0, tracee_after_all s0 [Request.waitpid 9 1407, Request.getregset 9 NT_PRSTATUS,
          Request.getregset 9 NT_FPREGSET] = .Stopped)
    ∧ (false = true → (1407 : Int) / (256 : Int) ≠ Int.ofNat SIGTRAP →
      [Request.waitpid 9 1407, Request.getregset 9 NT_PRSTATUS,
          Request.getregset 9 NT_FPREGSET]
        = Request.waitpid 9 1407 :: collect_log .amd64 9
          ++ [Request.cont 9 (WSTOPSIG 1407)]
      ∧ ∀ s0, tracee_after_all s0 [Request.waitpid 9 1407, Request.getregset 9 NT_PRSTATUS,
          Request.getregset 9 NT_FPREGSET] = .Running)
    ∧ ∃ info2 slog, session .amd64 false 9
        [(kernel_ok 0 [1] [2] [3] 0 0, kernel_ok 2687 [4] [5] [6] 10 0),
         (kernel_ok 0 [4] [5] [6] 0 0, kernel_ok 394623 [7] [8] [9] 5 42)] (fresh_info 9)
        = some (info2, slog)
      ∧ acts_on_stopped .Stopped slog = true
      ∧ ∀ n ∈ conts_between_waits none slog, n = 1 :=
  reap_leaves_stopped .amd64 false (kernel_ok 1407 [1] [2] [3] 5 0) 9 (fresh_info 9)
    { fresh_info 9 with regs_struct := [1], fpregs_struct := [2] } 1407
    [Request.waitpid 9 1407, Request.getregset 9 NT_PRSTATUS, Request.getregset 9 NT_FPREGSET]
    [(kernel_ok 0 [1] [2] [3] 0 0, kernel_ok 2687 [4] [5] [6] 10 0),
     (kernel_ok 0 [4] [5] [6] 0 0, kernel_ok 394623 [7] [8] [9] 5 42)] (fresh_info 9)
    rfl (by decide) (by decide)
end Ptrace
